import Mathlib

/-!
Shallow embedding of the ingestion pipeline of `main.py` and
`fetch_privatization_plans.py` (torgi.gov.ru open-data harvester).

JSON values are modelled by an inductive `Json`; Python `dict.get` on a
known dict is the total `getDJ`, while `.get` applied to a value that may
not be a dict is `mget`/`mgetD`, which return `Except.error ()` exactly
where CPython would raise `AttributeError`/`TypeError`.  Database tables
are lists of rows; a `UNIQUE` column comparison follows SQL equality
(`sqlEq`), under which NULL never equals anything.  Column type coercion
performed by the database driver is not modelled: any `Json` value is
storable.  Numbers are modelled by `Int` (the documents hold integers and
numeric strings; floats do not decide any claim).
-/

inductive Json where
  | null
  | bool (b : Bool)
  | num (n : Int)
  | str (s : String)
  | arr (xs : List Json)
  | obj (kvs : List (String × Json))

/-- Python truthiness of a JSON value (`if x:`). -/
def Json.truthy : Json → Bool
  | .null => false
  | .bool b => b
  | .num n => !(n == 0)
  | .str s => !(s == "")
  | .arr xs => !xs.isEmpty
  | .obj kvs => !kvs.isEmpty

def Json.isObj : Json → Bool
  | .obj _ => true
  | _ => false

def Json.isNull : Json → Bool
  | .null => true
  | _ => false

/-- `j.get(k, d)` for a receiver `j` that the source already knows is a
dict (total; non-dict receivers only reach this through callers that have
established the dict shape). -/
def getDJ (j : Json) (k : String) (d : Json) : Json :=
  match j with
  | .obj kvs => ((kvs.find? (fun p => p.1 == k)).map (fun p => p.2)).getD d
  | _ => d

/-- `j.get(k)` where `j` may not be a dict: CPython raises
`AttributeError` on a non-dict receiver. -/
def mget (j : Json) (k : String) : Except Unit Json :=
  match j with
  | .obj _ => .ok (getDJ j k .null)
  | _ => .error ()

/-- `j.get(k, d)` where `j` may not be a dict. -/
def mgetD (j : Json) (k : String) (d : Json) : Except Unit Json :=
  match j with
  | .obj _ => .ok (getDJ j k d)
  | _ => .error ()

/-- SQL equality of two stored column values: NULL compares equal to
nothing; scalars compare by value.  Non-scalar parameters fail driver
adaptation in the source and are never successfully stored as comparable
keys, so they compare unequal here. -/
def sqlEq : Json → Json → Bool
  | .bool a, .bool b => a == b
  | .num a, .num b => a == b
  | .str a, .str b => a == b
  | _, _ => false

def eOk {α : Type} : Except Unit α → Bool
  | .ok _ => true
  | .error _ => false

/-- Python key-membership test `k in j` for a dict. -/
def hasKeyJ (j : Json) (k : String) : Bool :=
  match j with
  | .obj kvs => kvs.any (fun p => p.1 == k)
  | _ => false

abbrev FlatMap := List (String × Json)

/-- Python dict assignment `m[k] = v`: replace in place if present,
else append (insertion order preserved). -/
def setF (m : FlatMap) (k : String) (v : Json) : FlatMap :=
  if m.any (fun p => p.1 == k) then
    m.map (fun p => if p.1 == k then (k, v) else p)
  else m ++ [(k, v)]

def lookupF (m : FlatMap) (k : String) : Option Json :=
  (m.find? (fun p => p.1 == k)).map (fun p => p.2)

def hasKeyF (m : FlatMap) (k : String) : Bool :=
  m.any (fun p => p.1 == k)

/-- `needle` starts `hay` (character lists). -/
def startsW : List Char → List Char → Bool
  | [], _ => true
  | _ :: _, [] => false
  | a :: as, b :: bs => a == b && startsW as bs

/-- `needle` occurs contiguously inside `hay`. -/
def hasSub : List Char → List Char → Bool
  | n, [] => n.isEmpty
  | n, c :: rest => startsW n (c :: rest) || hasSub n rest

/-- Python substring test `needle in hay`. -/
def pyIn (needle hay : String) : Bool :=
  hasSub needle.toList hay.toList

/-- Take exactly eight decimal digits (`\d{8}` of the URL date regex). -/
def take8 : List Char → Option (String × List Char)
  | c1 :: c2 :: c3 :: c4 :: c5 :: c6 :: c7 :: c8 :: rest =>
    if c1.isDigit && c2.isDigit && c3.isDigit && c4.isDigit &&
       c5.isDigit && c6.isDigit && c7.isDigit && c8.isDigit then
      some (String.mk [c1, c2, c3, c4, c5, c6, c7, c8], rest)
    else none
  | _ => none

/-- Match `data-(\d{8})T0000-(\d{8})T0000` at the head of the list. -/
def matchPatAt (cs : List Char) : Option (String × String) :=
  match cs with
  | 'd' :: 'a' :: 't' :: 'a' :: '-' :: r0 =>
    match take8 r0 with
    | some (d1, r1) =>
      match r1 with
      | 'T' :: '0' :: '0' :: '0' :: '0' :: '-' :: r2 =>
        match take8 r2 with
        | some (d2, r3) =>
          match r3 with
          | 'T' :: '0' :: '0' :: '0' :: '0' :: _ => some (d1, d2)
          | _ => none
        | none => none
      | _ => none
    | none => none
  | _ => none

/-- `re.search`: first position where the pattern matches. -/
def searchPat : List Char → Option (String × String)
  | [] => none
  | c :: rest =>
    match matchPatAt (c :: rest) with
    | some r => some r
    | none => searchPat rest

/-- Date-range extraction from a snapshot source URL
(`re.search(r"data-(\d{8})T0000-(\d{8})T0000", source)`). -/
def extractDateRange (s : String) : Option String × Option String :=
  match searchPat s.toList with
  | some (a, b) => (some a, some b)
  | none => (none, none)

/-! ## Document flattener (`process_document_file`, main.py lines 789-1061) -/

inductive DocType where
  | privatizationPlan
  | privatizationDecision
  | planCancel
  | planReport
deriving DecidableEq

/-- Key under `exportObject.structuredObject` for each document type. -/
def dtKey : DocType → String
  | .privatizationPlan => "privatizationPlan"
  | .privatizationDecision => "privatizationDecision"
  | .planCancel => "planCancel"
  | .planReport => "planReport"

/-- `commonInfo` handling for `planCancel` (main.py 824-833). -/
def ciCancel (v : Json) : Except Unit (List (String × Json)) := do
  let tzc ← mget (getDJ v "timeZone" (.obj [])) "code"
  let tzn ← mget (getDJ v "timeZone" (.obj [])) "name"
  let sdi ← mget (getDJ v "signedData" (.obj [])) "id"
  let sds ← mget (getDJ v "signedData" (.obj [])) "size"
  let sdh ← mget (getDJ v "signedData" (.obj [])) "hash"
  let sdf ← mget (getDJ v "signedData" (.obj [])) "fileType"
  pure [("plannumber", getDJ v "planNumber" .null),
        ("name", getDJ v "name" .null),
        ("cancellationdate", getDJ v "cancellationDate" .null),
        ("timezone_code", tzc), ("timezone_name", tzn),
        ("signeddata_id", sdi), ("signeddata_size", sds),
        ("signeddata_hash", sdh), ("signeddata_filetype", sdf)]

/-- `commonInfo` handling for `planReport` (main.py 834-844). -/
def ciReport (v : Json) : Except Unit (List (String × Json)) := do
  let tzc ← mget (getDJ v "timeZone" (.obj [])) "code"
  let tzn ← mget (getDJ v "timeZone" (.obj [])) "name"
  let sdi ← mget (getDJ v "signedData" (.obj [])) "id"
  let sds ← mget (getDJ v "signedData" (.obj [])) "size"
  let sdh ← mget (getDJ v "signedData" (.obj [])) "hash"
  let sdf ← mget (getDJ v "signedData" (.obj [])) "fileType"
  pure [("privatizationplan_number", getDJ v "planNumber" .null),
        ("name", getDJ v "name" .null),
        ("publishdate", getDJ v "publishDate" .null),
        ("timezone_code", tzc), ("timezone_name", tzn),
        ("signingdate", getDJ v "signingDate" .null),
        ("signeddata_id", sdi), ("signeddata_size", sds),
        ("signeddata_hash", sdh), ("signeddata_filetype", sdf)]

/-- First attachment of an `attachments` array (main.py 1000-1009 and
875-882): four scalar fields plus the nested `attachmentType` block. -/
def attachFirst (x : Json) : Except Unit (List (String × Json)) := do
  let ai ← mget x "id"
  let an ← mget x "name"
  let asz ← mget x "size"
  let ah ← mget x "hash"
  let at_ ← mgetD x "attachmentType" (.obj [])
  let atc ← mget at_ "code"
  let atn ← mget at_ "name"
  pure [("attachments_id", ai), ("attachments_name", an),
        ("attachments_size", asz), ("attachments_hash", ah),
        ("attachments_attachmenttype_code", atc),
        ("attachments_attachmenttype_name", atn)]

/-- First bid form of a `biddForms` array (main.py 1010-1014, 884-888). -/
def biddFirst (x : Json) : Except Unit (List (String × Json)) := do
  let bc ← mget x "code"
  let bn ← mget x "name"
  pure [("biddforms_code", bc), ("biddforms_name", bn)]

/-- `commonInfo` handling for `privatizationDecision` (main.py 845-888);
`d` is the whole document object, read for the doc-level fields. -/
def ciDecision (d v : Json) : Except Unit (List (String × Json)) := do
  let tzc ← mget (getDJ v "timeZone" (.obj [])) "code"
  let tzn ← mget (getDJ v "timeZone" (.obj [])) "name"
  let hoc ← mget (getDJ d "hostingOrg" (.obj [])) "code"
  let boc ← mget (getDJ d "bidderOrg" (.obj [])) "code"
  let bon ← mget (getDJ d "bidderOrg" (.obj [])) "name"
  let boi ← mget (getDJ d "bidderOrg" (.obj [])) "INN"
  let bok ← mget (getDJ d "bidderOrg" (.obj [])) "KPP"
  let bog ← mget (getDJ d "bidderOrg" (.obj [])) "OGRN"
  let bot ← mget (getDJ d "bidderOrg" (.obj [])) "orgType"
  let bou ← mget (getDJ d "bidderOrg" (.obj [])) "unregistered"
  let smo ← mget (getDJ d "stockInfo" (.obj [])) "minusOne"
  let pop ← mget (getDJ d "privatizationObject" (.obj [])) "planNumber"
  let poo ← mget (getDJ d "privatizationObject" (.obj [])) "objectNumber"
  let pon ← mget (getDJ d "privatizationObject" (.obj [])) "name"
  let pot ← mget (getDJ d "privatizationObject" (.obj [])) "type"
  let poi ← mget (getDJ d "privatizationObject" (.obj [])) "isNotInPlan"
  let sdi ← mget (getDJ v "signedData" (.obj [])) "id"
  let sds ← mget (getDJ v "signedData" (.obj [])) "size"
  let sdh ← mget (getDJ v "signedData" (.obj [])) "hash"
  let sdf ← mget (getDJ v "signedData" (.obj [])) "fileType"
  let att := getDJ d "attachments" (.arr [])
  let attUpd ← (if att.truthy then
      match att with
      | .arr (x :: _) => attachFirst x
      | _ => .error ()
    else pure [])
  let bf := getDJ d "biddForms" (.arr [])
  let bfUpd ← (if bf.truthy then
      match bf with
      | .arr (x :: _) => biddFirst x
      | _ => .error ()
    else pure [])
  pure ([("schemeversion", getDJ d "schemeVersion" .null),
         ("id_field", getDJ d "id" .null),
         ("decisionnumber", getDJ v "decisionNumber" .null),
         ("publishdate", getDJ v "publishDate" .null),
         ("timezone_code", tzc), ("timezone_name", tzn),
         ("hostingorg_code", hoc),
         ("bidderorg_code", boc), ("bidderorg_name", bon),
         ("bidderorg_inn", boi), ("bidderorg_kpp", bok),
         ("bidderorg_ogrn", bog), ("bidderorg_orgtype", bot),
         ("bidderorg_unregistered", bou),
         ("privatizationreason", getDJ d "privatizationReason" .null),
         ("startprice", getDJ d "startPrice" .null),
         ("stockinfo_minusone", smo),
         ("privatizationobject_plannumber", pop),
         ("privatizationobject_objectnumber", poo),
         ("privatizationobject_name", pon),
         ("privatizationobject_type", pot),
         ("privatizationobject_isnotinplan", poi),
         ("signeddata_id", sdi), ("signeddata_size", sds),
         ("signeddata_hash", sdh), ("signeddata_filetype", sdf)]
        ++ attUpd ++ bfUpd)

/-- Default `commonInfo` handling (`privatizationPlan`; main.py 889-899). -/
def ciDefault (v : Json) : Except Unit (List (String × Json)) := do
  let tzc ← mget (getDJ v "timeZone" (.obj [])) "code"
  let tzn ← mget (getDJ v "timeZone" (.obj [])) "name"
  let sdi ← mget (getDJ v "signedData" (.obj [])) "id"
  let sds ← mget (getDJ v "signedData" (.obj [])) "size"
  let sdh ← mget (getDJ v "signedData" (.obj [])) "hash"
  let sdf ← mget (getDJ v "signedData" (.obj [])) "fileType"
  pure [("plannumber", getDJ v "planNumber" .null),
        ("name", getDJ v "name" .null),
        ("publishdate", getDJ v "publishDate" .null),
        ("timezone_code", tzc), ("timezone_name", tzn),
        ("signingdate", getDJ v "signingDate" .null),
        ("signeddata_id", sdi), ("signeddata_size", sds),
        ("signeddata_hash", sdh), ("signeddata_filetype", sdf)]

/-- `reportData` handling (main.py 927-982). -/
def reportUpdates (v : Json) : Except Unit (List (String × Json)) := do
  let ed := getDJ v "enterpriseData" (.obj [])
  let a1 ← mget ed "planCount"
  let a2 ← mget ed "excludedCount"
  let a3 ← mget ed "factCount"
  let cd := getDJ v "companiesData" (.obj [])
  let b1 ← mget cd "planCount"
  let b2 ← mget cd "excludedCount"
  let b3 ← mget cd "tenderedCount"
  let au ← mgetD cd "auction" (.obj [])
  let c1 ← mget au "count"
  let c2 ← mget au "startSum"
  let c3 ← mget au "saleSum"
  let po ← mgetD cd "publicOffer" (.obj [])
  let d1 ← mget po "count"
  let d2 ← mget po "startSum"
  let d3 ← mget po "saleSum"
  let cm ← mgetD cd "competition" (.obj [])
  let e1 ← mget cm "count"
  let e2 ← mget cm "startSum"
  let e3 ← mget cm "saleSum"
  let op := getDJ v "otherPropertyData" (.obj [])
  let f1 ← mget op "planCount"
  let f2 ← mget op "tenderedCount"
  let au2 ← mgetD op "auction" (.obj [])
  let g1 ← mget au2 "count"
  let g2 ← mget au2 "startSum"
  let g3 ← mget au2 "saleSum"
  let po2 ← mgetD op "publicOffer" (.obj [])
  let h1 ← mget po2 "count"
  let h2 ← mget po2 "startSum"
  let h3 ← mget po2 "saleSum"
  let cm2 ← mgetD op "competition" (.obj [])
  let i1 ← mget cm2 "count"
  let i2 ← mget cm2 "startSum"
  let i3 ← mget cm2 "saleSum"
  let rv := getDJ v "revenuesData" (.obj [])
  let j1 ← mget rv "planRevenues"
  let j2 ← mget rv "planBudgetDeficitFinancingSum"
  let j3 ← mget rv "factBudgetDeficitFinancingTotalSum"
  let j4 ← mget rv "factBudgetDeficitFinancingThisYearSum"
  let j5 ← mget rv "factBudgetDeficitFinancingLastYearSum"
  let j6 ← mget rv "planNonTaxRevenueSum"
  let j7 ← mget rv "factNonTaxRevenueTotalSum"
  let j8 ← mget rv "factNonTaxRevenueThisYearTotalSum"
  let j9 ← mget rv "factNonTaxRevenueLastYearTotalSum"
  pure [("reportdata_enterprisedata_plancount", a1),
        ("reportdata_enterprisedata_excludedcount", a2),
        ("reportdata_enterprisedata_factcount", a3),
        ("reportdata_companiesdata_plancount", b1),
        ("reportdata_companiesdata_excludedcount", b2),
        ("reportdata_companiesdata_tenderedcount", b3),
        ("reportdata_companiesdata_auction_count", c1),
        ("reportdata_companiesdata_auction_startsum", c2),
        ("reportdata_companiesdata_auction_salesum", c3),
        ("reportdata_companiesdata_publicoffer_count", d1),
        ("reportdata_companiesdata_publicoffer_startsum", d2),
        ("reportdata_companiesdata_publicoffer_salesum", d3),
        ("reportdata_companiesdata_competition_count", e1),
        ("reportdata_companiesdata_competition_startsum", e2),
        ("reportdata_companiesdata_competition_salesum", e3),
        ("reportdata_otherpropertydata_plancount", f1),
        ("reportdata_otherpropertydata_tenderedcount", f2),
        ("reportdata_otherpropertydata_auction_count", g1),
        ("reportdata_otherpropertydata_auction_startsum", g2),
        ("reportdata_otherpropertydata_auction_salesum", g3),
        ("reportdata_otherpropertydata_publicoffer_count", h1),
        ("reportdata_otherpropertydata_publicoffer_startsum", h2),
        ("reportdata_otherpropertydata_publicoffer_salesum", h3),
        ("reportdata_otherpropertydata_competition_count", i1),
        ("reportdata_otherpropertydata_competition_startsum", i2),
        ("reportdata_otherpropertydata_competition_salesum", i3),
        ("reportdata_revenuesdata_planrevenues", j1),
        ("reportdata_revenuesdata_planbudgetdeficitfinancingsum", j2),
        ("reportdata_revenuesdata_factbudgetdeficitfinancingtotalsum", j3),
        ("reportdata_revenuesdata_factbudgetdeficitfinancingthisyearsum", j4),
        ("reportdata_revenuesdata_factbudgetdeficitfinancinglastyearsum", j5),
        ("reportdata_revenuesdata_plannontaxrevenuesum", j6),
        ("reportdata_revenuesdata_factnontaxrevenuetotalsum", j7),
        ("reportdata_revenuesdata_factnontaxrevenuethisyeartotalsum", j8),
        ("reportdata_revenuesdata_factnontaxrevenuelastyeartotalsum", j9)]

/-- The always-pure dict-branch field projections (main.py 900-996,
excluding `commonInfo` and `reportData`); the guarding key literals are
pairwise distinct, so their relative order is the source's. -/
def dictAssigns (dt : DocType) (k : String) (v : Json) : List (String × Json) :=
  if k == "hostingOrg" && !(dt == .privatizationDecision) then
    [("hostingorg_code", getDJ v "code" .null),
     ("hostingorg_name", getDJ v "name" .null),
     ("hostingorg_inn", getDJ v "INN" .null),
     ("hostingorg_kpp", getDJ v "KPP" .null),
     ("hostingorg_ogrn", getDJ v "OGRN" .null),
     ("hostingorg_orgtype", getDJ v "orgType" .null)]
  else if k == "planingPeriodInfo" then
    [("planingperiod", getDJ v "planingPeriod" .null),
     ("startyear", getDJ v "startYear" .null),
     ("endyear", getDJ v "endYear" .null),
     ("signingdate_plan", getDJ v "signingDate" .null),
     ("documentnumber", getDJ v "documentNumber" .null)]
  else if k == "ownershipForms" then
    [("ownershipforms_code", getDJ v "code" .null),
     ("ownershipforms_name", getDJ v "name" .null)]
  else if k == "budget" then
    [("budget_code", getDJ v "code" .null),
     ("budget_name", getDJ v "name" .null),
     ("budget_codeokfs", getDJ v "codeOKFS" .null)]
  else if k == "privatizationPlan" then
    [("privatizationplan_number", getDJ v "number" .null),
     ("privatizationplan_name", getDJ v "name" .null),
     ("privatizationplan_planingperiod", getDJ v "planingPeriod" .null)]
  else if k == "subjectRF" then
    [("subjectrf_code", getDJ v "code" .null),
     ("subjectrf_name", getDJ v "name" .null)]
  else if k == "privatizationObject" && !(dt == .privatizationDecision) then
    [("privatizationobject_plannumber", getDJ v "planNumber" .null),
     ("privatizationobject_objectnumber", getDJ v "objectNumber" .null),
     ("privatizationobject_name", getDJ v "name" .null),
     ("privatizationobject_type", getDJ v "type" .null),
     ("privatizationobject_isnotinplan", getDJ v "isNotInPlan" .null)]
  else if k == "stockInfo" && !(dt == .privatizationDecision) then
    [("stockinfo_minusone", getDJ v "minusOne" .null)]
  else if k == "purpose" && !(dt == .privatizationDecision) then
    [("purpose_code", getDJ v "code" .null),
     ("purpose_name", getDJ v "name" .null)]
  else if k == "attachmentType" && !(dt == .privatizationDecision) then
    [("attachments_attachmenttype_code", getDJ v "code" .null),
     ("attachments_attachmenttype_name", getDJ v "name" .null)]
  else []

/-- Branch for a dict-valued top-level key (main.py 820-996).  The two
arms whose bodies can raise (`commonInfo`, `reportData`) are dispatched
first; the guarding key literals of the whole source chain are pairwise
distinct, so this preserves the source's arm selection exactly. -/
def dictUpdates (dt : DocType) (d : Json) (k : String) (v : Json) :
    Except Unit (List (String × Json)) :=
  if k == "commonInfo" then
    (if dt == .planCancel then ciCancel v
     else if dt == .planReport then ciReport v
     else if dt == .privatizationDecision then ciDecision d v
     else ciDefault v)
  else if k == "reportData" then reportUpdates v
  else pure (dictAssigns dt k v)

/-- Branch for a list-valued top-level key (main.py 997-1014). -/
def listUpdates (dt : DocType) (k : String) (xs : List Json) :
    Except Unit (List (String × Json)) :=
  if k == "attachments" && !(dt == .privatizationDecision) then
    match xs with
    | [] => pure []
    | x :: _ => attachFirst x
  else if k == "biddForms" && !(dt == .privatizationDecision) then
    match xs with
    | [] => pure []
    | x :: _ => biddFirst x
  else pure []

/-- The always-pure scalar-branch projections (main.py 1016-1057,
excluding the three raising arms); key literals are pairwise distinct,
so their relative order is the source's. -/
def scalarAssigns (dt : DocType) (k : String) (v : Json) : List (String × Json) :=
  if k == "schemeVersion" && !(dt == .privatizationDecision) then
    [("schemeversion", v)]
  else if k == "id" && !(dt == .privatizationDecision) then
    [("id_field", v)]
  else if k == "version" then [("version", v)]
  else if k == "decisionNumber" && !(dt == .privatizationDecision) then
    [("decisionnumber", v)]
  else if k == "publishDate" && !(dt == .privatizationDecision ||
      dt == .planCancel || dt == .planReport) then
    [("publishdate", v)]
  else if k == "cancellationDate" then [("cancellationdate", v)]
  else if k == "reason" then [("reason", v)]
  else if k == "decisionDate" then [("decisiondate", v)]
  else if k == "decisionNumber" then [("decisionnumber", v)]
  else if k == "rootId" then [("rootid", v)]
  else if k == "signingDate" then [("signingdate", v)]
  else if k == "year" then [("year", v)]
  else if k == "privatizationReason" && !(dt == .privatizationDecision) then
    [("privatizationreason", v)]
  else if k == "startPrice" && !(dt == .privatizationDecision) then
    [("startprice", v)]
  else if k == "authority" then [("authority", v)]
  else []

/-- Branch for a scalar top-level key (main.py 1015-1061).  The
`timeZone`, `bidderOrg` and `budgetRevenueForecast` arms call `.get` on
the scalar itself, which raises in CPython (modelled by `.error`); they
are dispatched first, which preserves the source's arm selection because
all key literals of the chain are pairwise distinct. -/
def scalarUpdates (dt : DocType) (k : String) (v : Json) :
    Except Unit (List (String × Json)) :=
  if k == "timeZone" && !(dt == .privatizationDecision) then do
    let c ← mget v "code"
    let n ← mget v "name"
    pure [("timezone_code", c), ("timezone_name", n)]
  else if k == "bidderOrg" && !(dt == .privatizationDecision) then do
    let a ← mget v "code"
    let b ← mget v "name"
    let c ← mget v "INN"
    let d2 ← mget v "KPP"
    let e ← mget v "OGRN"
    let f ← mget v "orgType"
    let g ← mget v "unregistered"
    pure [("bidderorg_code", a), ("bidderorg_name", b),
          ("bidderorg_inn", c), ("bidderorg_kpp", d2),
          ("bidderorg_ogrn", e), ("bidderorg_orgtype", f),
          ("bidderorg_unregistered", g)]
  else if k == "budgetRevenueForecast" then do
    let a ← mget v "sumFirstYear"
    let b ← mget v "sumSecondYear"
    let c ← mget v "sumThirdYear"
    pure [("budgetrevenueforecast_sumfirstyear", a),
          ("budgetrevenueforecast_sumsecondyear", b),
          ("budgetrevenueforecast_sumthirdyear", c)]
  else pure (scalarAssigns dt k v)

/-- Field assignments produced by one top-level `(key, value)` entry of
the document.  Exceptions abort the whole flattening, so collecting each
branch's assignments before applying them is observationally equivalent
to the source's interleaved `flat_data[...] = ...` statements. -/
def entryUpdates (dt : DocType) (d : Json) (k : String) (v : Json) :
    Except Unit (List (String × Json)) :=
  match v with
  | .obj _ => dictUpdates dt d k v
  | .arr xs => listUpdates dt k xs
  | _ => scalarUpdates dt k v

/-- Initial `flat_data` (main.py 810-814). -/
def flattenInit (detailId : Option Int) : FlatMap :=
  match detailId with
  | some i => [("privatizationplansdetail_id", .num i)]
  | none => []

def applyUpdates (m : FlatMap) (us : List (String × Json)) : FlatMap :=
  us.foldl (fun acc kv => setF acc kv.1 kv.2) m

/-- The flattening loop `for key, value in doc_data.items()`
(main.py 816-1061); a non-dict document raises at `.items()`. -/
def flattenDoc (dt : DocType) (d : Json) (detailId : Option Int) :
    Except Unit FlatMap :=
  match d with
  | .obj kvs => do
    let uss ← kvs.mapM (fun kv => entryUpdates dt d kv.1 kv.2)
    pure (uss.foldl applyUpdates (flattenInit detailId))
  | _ => .error ()

/-! ## Privatization objects (`insert_privatization_object`, main.py 1089-1143) -/

structure PrivObjRow where
  privatizationplan_id : Json
  objectnumber : Json
  statusobject : Json
  name : Json
  type_ : Json
  timing : Json
  subjectrf_code : Json
  subjectrf_name : Json
  location : Json
  stockinfo_minusone : Json
  purpose_code : Json
  purpose_name : Json
  kadnumber : Json
  attachments_id : Json
  attachments_name : Json
  attachments_size : Json
  attachments_hash : Json
  attachments_attachmenttype_code : Json
  attachments_attachmenttype_name : Json

/-- Field extraction of `insert_privatization_object` (main.py 1091-1143);
errors where CPython would raise on a non-dict/non-list receiver. -/
def extractPrivObj (pid : Json) (o : Json) : Except Unit PrivObjRow := do
  let si ← mgetD o "stockInfo" (.obj [])
  let pu ← mgetD o "purpose" (.obj [])
  let att ← mgetD o "attachments" (.arr [])
  let atype ← (if att.truthy then
      match att with
      | .arr (x :: _) => mgetD x "attachmentType" (.obj [])
      | _ => .error ()
    else pure (.obj []))
  let sc ← mget (getDJ o "subjectRF" (.obj [])) "code"
  let sn ← mget (getDJ o "subjectRF" (.obj [])) "name"
  let mo ← mget si "minusOne"
  let pc ← mget pu "code"
  let pn ← mget pu "name"
  let attFields ← (if att.truthy then
      match att with
      | .arr (x :: _) => do
        let ai ← mget x "id"
        let an ← mget x "name"
        let asz ← mget x "size"
        let ah ← mget x "hash"
        pure (ai, an, asz, ah)
      | _ => .error ()
    else pure (.null, .null, .null, .null))
  let atc ← mget atype "code"
  let atn ← mget atype "name"
  pure ⟨pid,
        getDJ o "objectNumber" .null,
        getDJ o "statusObject" .null,
        getDJ o "name" .null,
        getDJ o "type" .null,
        getDJ o "timing" .null,
        sc, sn,
        getDJ o "location" .null,
        mo, pc, pn,
        getDJ o "kadNumber" .null,
        attFields.1, attFields.2.1, attFields.2.2.1, attFields.2.2.2,
        atc, atn⟩

/-- `INSERT ... ON CONFLICT (objectnumber) DO UPDATE`: a NULL object
number never conflicts; on conflict every column except `objectnumber`
is overwritten with the new values. -/
def upsertPrivObj (t : List PrivObjRow) (r : PrivObjRow) : List PrivObjRow :=
  if t.any (fun q => sqlEq q.objectnumber r.objectnumber) then
    t.map (fun q => if sqlEq q.objectnumber r.objectnumber then
        { r with objectnumber := q.objectnumber } else q)
  else t ++ [r]

/-! ## Document processing transaction (`process_document_file`) -/

structure DocState where
  docTable : List FlatMap
  privObjects : List PrivObjRow

/-- The destination table's UNIQUE `id_field` constraint: a plain INSERT
conflicts iff the new row carries a non-NULL `id_field` equal to an
existing row's. -/
def docKeyConflict (t : List FlatMap) (m : FlatMap) : Bool :=
  match lookupF m "id_field" with
  | some v => t.any (fun r =>
      match lookupF r "id_field" with
      | some w => sqlEq w v
      | none => false)
  | none => false

def insertDoc (t : List FlatMap) (m : FlatMap) : Except Unit (List FlatMap) :=
  if docKeyConflict t m then .error () else .ok (t ++ [m])

/-- Routing of the `privatizationObjects` array to the object upserts
(main.py 1063-1068); iterating a non-list value raises unless it is an
empty dict or empty string. -/
def objPhase (dt : DocType) (docd : Json) (m : FlatMap)
    (t : List PrivObjRow) : Except Unit (List PrivObjRow) :=
  if dt == .privatizationPlan && hasKeyJ docd "privatizationObjects" then
    let po := getDJ docd "privatizationObjects" (.arr [])
    let pid := (lookupF m "privatizationplansdetail_id").getD .null
    match po with
    | .arr xs =>
      xs.foldlM (fun acc o => do
        let r ← extractPrivObj pid o
        pure (upsertPrivObj acc r)) t
    | .obj kvs => match kvs with | [] => pure t | _ :: _ => .error ()
    | .str s => if s == "" then pure t else .error ()
    | _ => .error ()
  else pure t

/-- `process_document_file` (main.py 766-1086) on an already-parsed file
JSON.  The object upserts and the document INSERT share one transaction:
on an INSERT failure `conn.rollback()` discards the object upserts too;
on success `conn.commit()` publishes both.  `.error` models an uncaught
exception (nothing committed). -/
def processDoc (dt : DocType) (fd : Json) (detailId : Option Int)
    (st : DocState) : Except Unit (Bool × DocState) := do
  let eo ← mgetD fd "exportObject" (.obj [])
  let so ← mgetD eo "structuredObject" (.obj [])
  if !so.truthy then pure (false, st) else do
  let docd ← mgetD so (dtKey dt) (.obj [])
  if !docd.truthy then pure (false, st) else do
  let m ← flattenDoc dt docd detailId
  let objs2 ← objPhase dt docd m st.privObjects
  if m.isEmpty then pure (false, { st with privObjects := objs2 })
  else
    match insertDoc st.docTable m with
    | .ok t2 => pure (true, ⟨t2, objs2⟩)
    | .error _ => pure (false, st)

/-! ## Category tables (`parse_and_save_category_data`, main.py 179-260) -/

structure CatRow where
  source : Json
  created : Json
  provenance : Json
  valid : Json
  structure_ : Json
  drs : Option String
  dre : Option String

/-- Row built from one manifest item; `none` models the `re.search`
TypeError on a non-string `source` and the `.get` AttributeError on a
non-dict item. -/
def catRowOf (item : Json) : Option CatRow :=
  match item with
  | .obj _ =>
    let src := getDJ item "source" (.str "")
    match src with
    | .str s =>
      let dr := extractDateRange s
      some ⟨src, getDJ item "created" (.str ""),
            getDJ item "provenance" (.str ""),
            getDJ item "valid" (.str ""),
            getDJ item "structure" (.str ""),
            dr.1, dr.2⟩
    | _ => none
  | _ => none

/-- `INSERT ... ON CONFLICT (source) DO UPDATE` of the category table:
non-key fields are overwritten, the key is kept. -/
def upsertCatBySource (t : List CatRow) (row : CatRow) : List CatRow :=
  if t.any (fun r => sqlEq r.source row.source) then
    t.map (fun r => if sqlEq r.source row.source then
        { row with source := r.source } else r)
  else t ++ [row]

/-- One iteration of the item loop (main.py 207-255): look up by source,
skip (`continue`) when present, otherwise insert. -/
def saveCatStep (t : List CatRow) (item : Json) : Option (List CatRow) :=
  match catRowOf item with
  | none => none
  | some row =>
    if t.any (fun r => sqlEq r.source row.source) then some t
    else some (upsertCatBySource t row)

/-- The whole item loop; an exception stops processing.  The rows already
executed on the shared connection are retained (they are committed by the
next `conn.commit()` on that connection). -/
def saveCategoryData : List CatRow → List Json → List CatRow
  | t, [] => t
  | t, it :: its =>
    match saveCatStep t it with
    | some t2 => saveCategoryData t2 its
    | none => t

/-! ## Plans and details (`save_privatization_data_to_db`, main.py 652-729) -/

structure PlanRow where
  pid : Nat
  source : String
  created : Json
  valid : Json
  structure_ : Json
  drs : Option String
  dre : Option String

structure DetailRow where
  planId : Nat
  hostingOrg : Json
  bidderOrgCode : Json
  documentType : Json
  regNum : Json
  publishDate : Json
  href : Json

structure PlansState where
  plans : List PlanRow
  details : List DetailRow
  nextId : Nat

/-- One detail item (main.py 699-724): `.get` with `""` defaults, skip
when a row with SQL-equal `href` exists, else insert.  `none` models the
AttributeError on a non-dict detail. -/
def saveDetail (pid : Nat) (details : List DetailRow) (d : Json) :
    Option (List DetailRow) :=
  match d with
  | .obj _ =>
    let href := getDJ d "href" (.str "")
    if details.any (fun r => sqlEq r.href href) then some details
    else some (details ++
      [⟨pid, getDJ d "hostingOrg" (.str ""),
        getDJ d "bidderOrgCode" (.str ""),
        getDJ d "documentType" (.str ""),
        getDJ d "regNum" (.str ""),
        getDJ d "publishDate" (.str ""), href⟩])
  | _ => none

def saveDetails (pid : Nat) : List DetailRow → List Json → List DetailRow
  | details, [] => details
  | details, d :: ds =>
    match saveDetail pid details d with
    | some det2 => saveDetails pid det2 ds
    | none => details

/-- `save_privatization_data_to_db`: plan row is looked up by source and
reused when present (no field refresh), else inserted; then the detail
list (`listObjects` of a dict payload, or the payload itself when it is a
list) is inserted detail by detail, skipping existing hrefs. -/
def savePrivPlanData (ps : PlansState) (source : String)
    (created valid structure_ data : Json) : PlansState :=
  let dr := extractDateRange source
  let found := ps.plans.find? (fun r => r.source == source)
  let pid := match found with
    | some r => r.pid
    | none => ps.nextId
  let plans2 := match found with
    | some _ => ps.plans
    | none => ps.plans ++ [⟨ps.nextId, source, created, valid, structure_, dr.1, dr.2⟩]
  let next2 := match found with
    | some _ => ps.nextId
    | none => ps.nextId + 1
  -- `if plan_id:` — surrogate ids start at 1, so the guard only excludes 0
  if pid == 0 then ⟨plans2, ps.details, next2⟩
  else
    let detailsList := match data with
      | .obj _ => getDJ data "listObjects" (.arr [])
      | _ => data
    let details2 :=
      if detailsList.truthy then
        match detailsList with
        | .arr ds => saveDetails pid ps.details ds
        | _ => ps.details
      else ps.details
    ⟨plans2, details2, next2⟩

/-! ## Snapshot selectors -/

structure SnapItem where
  source : Json
  provenance : String
  created : Json
  valid : Json
  structure_ : Json

/-- Date-filtered selection of `fetch_privatization_plans_data`
(main.py 1175-1191): keep each manifest item whose provenance contains
one of the formatted date strings, tagged with the first matching date. -/
def selectForDates (dates : List String) (items : List SnapItem) :
    List (SnapItem × String) :=
  items.filterMap (fun it =>
    (dates.find? (fun ds => pyIn ds it.provenance)).map (fun d => (it, d)))

/-- `data_url = item.get("source")` followed by
`re.search(..., data_url)`: a non-string source raises. -/
def asUrl : Json → Except Unit String
  | .str s => .ok s
  | _ => .error ()

/-- `fetch_privatization_plans_yesterday`
(fetch_privatization_plans.py 50-137) with the network modelled by an
oracle `net` (`none` = `requests` failure, caught and turned into the
`(None, None, None)` return).  Returns `ok none` for the no-data returns,
`ok (some d)` for a successful data return, `.error` for an uncaught
exception. -/
def ySelect (yStr : String) (items : List SnapItem)
    (net : String → Option Json) : Except Unit (Option Json) := do
  match items.find? (fun it => pyIn yStr it.provenance) with
  | none => pure none
  | some it => do
    let u ← asUrl it.source
    match net u with
    | none => pure none
    | some d => do
      let u2 ← (if d.truthy then pure u
        else
          match items.find? (fun it2 => !(pyIn yStr it2.provenance)) with
          | none => pure u
          | some it2 => asUrl it2.source)
      if u2 == "" then pure none
      else
        match net u2 with
        | none => pure none
        | some d2 => pure (if d2.truthy then some d2 else none)

inductive FDD where
  | data (j : Json)
  | meta
  | failed

/-- The fallback loop of `fetch_dataset_data` (main.py 96-110): walk the
manifest entries from the most recent (list end) backwards, fetch each
truthy source, return the first non-empty payload; a fetch failure aborts
with `None`; if everything is empty or sourceless, the manifest itself is
returned. -/
def fddLoop (net : String → Option Json) : List SnapItem → FDD
  | [] => .meta
  | it :: rest =>
    if it.source.truthy then
      match it.source with
      | .str s =>
        match net s with
        | none => .failed
        | some d => if d.truthy then .data d else fddLoop net rest
      | _ => .failed
    else fddLoop net rest

def fetchDatasetData (net : String → Option Json) (items : List SnapItem) : FDD :=
  fddLoop net items.reverse

/-- Fetched payload of an item under the oracle (spec-side helper). -/
def payloadOf (net : String → Option Json) (it : SnapItem) : Json :=
  match it.source with
  | .str s => (net s).getD .null
  | _ => .null

/-- Spec-side: the item has a truthy source and a non-empty payload. -/
def nonEmptyAt (net : String → Option Json) (it : SnapItem) : Bool :=
  it.source.truthy && (payloadOf net it).truthy

/-! ## File cache (`fetch_privatization_plans_docs` /
`fetch_and_save_document_file`, main.py 732-763 and 1299-1316) -/

structure FS where
  files : List (String × String)

/-- Characters after the last slash (accumulator reversed on output). -/
def bnAux : List Char → List Char → List Char
  | acc, [] => acc.reverse
  | acc, c :: rest => if c == '/' then bnAux [] rest else bnAux (c :: acc) rest

/-- `href.split('/')[-1]`: the substring after the last slash (the whole
string when there is none, empty for a trailing slash). -/
def basenameOf (href : String) : String := String.mk (bnAux [] href.toList)

/-- The per-href cache step: if a file with the href's basename exists,
use it without fetching; otherwise fetch (`none` = network failure, the
item is skipped) and write the body under the basename.  Result:
(new filesystem, number of network fetches, cached file's name and
content if available). -/
def ensureDoc (net : String → Option String) (fs : FS) (href : String) :
    FS × Nat × Option (String × String) :=
  let fn := basenameOf href
  match fs.files.find? (fun p => p.1 == fn) with
  | some p => (fs, 0, some (fn, p.2))
  | none =>
    match net href with
    | some c => (⟨fs.files ++ [(fn, c)]⟩, 1, some (fn, c))
    | none => (fs, 1, none)

/-! ## Global ingestion state and the rerun step relation -/

structure GState where
  cat : List CatRow
  plans : List PlanRow
  details : List DetailRow
  nextPlanId : Nat
  docTables : DocType → List FlatMap
  privObjects : List PrivObjRow

inductive IngestOp where
  | cat (items : List Json)
  | plans (source : String) (created valid structure_ data : Json)
  | doc (dt : DocType) (fileData : Json) (detailId : Option Int)

/-- One persistence operation of a run.  A crashed `process_document_file`
leaves the state unchanged (its uncommitted writes are rolled back when
the process dies). -/
def gstep (st : GState) : IngestOp → GState
  | .cat items => { st with cat := saveCategoryData st.cat items }
  | .plans s c v str2 d =>
    let ps := savePrivPlanData ⟨st.plans, st.details, st.nextPlanId⟩ s c v str2 d
    { st with plans := ps.plans, details := ps.details, nextPlanId := ps.nextId }
  | .doc dt fd i =>
    match processDoc dt fd i ⟨st.docTables dt, st.privObjects⟩ with
    | .ok (_, ds) =>
      { st with
        docTables := fun dt2 => if dt2 == dt then ds.docTable else st.docTables dt2,
        privObjects := ds.privObjects }
    | .error _ => st

/-- Pairwise distinctness of natural keys under SQL equality. -/
def noSqlDupKeys : List Json → Bool
  | [] => true
  | k :: ks => ks.all (fun k2 => !(sqlEq k k2)) && noSqlDupKeys ks

def noDupStr : List String → Bool
  | [] => true
  | s :: ss => ss.all (fun s2 => !(s == s2)) && noDupStr ss

/-- The §3 uniqueness invariant over the three naturally-keyed tables the
pipeline writes (category/plan source URL, detail href, privatization
object number). -/
def invG (st : GState) : Bool :=
  noSqlDupKeys (st.cat.map (fun r => r.source)) &&
  noDupStr (st.plans.map (fun r => r.source)) &&
  noSqlDupKeys (st.details.map (fun r => r.href)) &&
  noSqlDupKeys (st.privObjects.map (fun r => r.objectnumber))

/-! ## Flattener well-formedness: the shapes under which no `.get` chain
of the flattening loop hits a non-dict receiver -/

/-- The value at `k` (defaulting to `{}`) is a dict. -/
def objp (v : Json) (k : String) : Bool :=
  (getDJ v k (.obj [])).isObj

/-- Decision documents additionally read doc-level blocks inside the
`commonInfo` branch (main.py 852-888). -/
def wfDecision (d : Json) : Bool :=
  objp d "hostingOrg" && objp d "bidderOrg" && objp d "stockInfo" &&
  objp d "privatizationObject" &&
  (let a := getDJ d "attachments" (.arr [])
   if a.truthy then
     match a with
     | .arr (x :: _) => x.isObj && objp x "attachmentType"
     | _ => false
   else true) &&
  (let b := getDJ d "biddForms" (.arr [])
   if b.truthy then
     match b with
     | .arr (x :: _) => x.isObj
     | _ => false
   else true)

/-- `reportData` reads two levels of nested blocks (main.py 927-982). -/
def wfReport (v : Json) : Bool :=
  objp v "enterpriseData" && objp v "companiesData" &&
  objp v "otherPropertyData" && objp v "revenuesData" &&
  (let cd := getDJ v "companiesData" (.obj [])
   objp cd "auction" && objp cd "publicOffer" && objp cd "competition") &&
  (let op := getDJ v "otherPropertyData" (.obj [])
   objp op "auction" && objp op "publicOffer" && objp op "competition")

/-- Shape condition for one top-level `(key, value)` entry under which
the corresponding flattening branch raises no exception. -/
def wfEntry (dt : DocType) (d : Json) (k : String) (v : Json) : Bool :=
  match v with
  | .obj _ =>
    if k == "commonInfo" then
      objp v "timeZone" && objp v "signedData" &&
      (if dt == .privatizationDecision then wfDecision d else true)
    else if k == "reportData" then wfReport v
    else true
  | .arr xs =>
    if k == "attachments" && !(dt == .privatizationDecision) then
      match xs with
      | [] => true
      | x :: _ => x.isObj && objp x "attachmentType"
    else if k == "biddForms" && !(dt == .privatizationDecision) then
      match xs with
      | [] => true
      | x :: _ => x.isObj
    else true
  | _ =>
    !((k == "timeZone" && !(dt == .privatizationDecision)) ||
      (k == "bidderOrg" && !(dt == .privatizationDecision)) ||
      k == "budgetRevenueForecast")

/-- A document object all of whose entries are well shaped. -/
def wfDoc (dt : DocType) (d : Json) : Bool :=
  match d with
  | .obj kvs => kvs.all (fun kv => wfEntry dt d kv.1 kv.2)
  | _ => false

/-! ## Generic lemmas -/

theorem mget_ok_of_isObj {j : Json} (h : j.isObj = true) (k : String) :
    mget j k = .ok (getDJ j k .null) := by
  cases j <;> simp_all [Json.isObj, mget]

theorem isObj_elim {j : Json} (h : j.isObj = true) : ∃ kvs, j = .obj kvs := by
  cases j <;> simp_all [Json.isObj]

theorem exc_bind_ok {α β : Type} (a : α) (f : α → Except Unit β) :
    (Except.ok a >>= f) = f a := rfl

theorem exc_pure_ok {α : Type} (a : α) :
    (pure a : Except Unit α) = .ok a := rfl

theorem exc_bind_err {α β : Type} (e : Unit) (f : α → Except Unit β) :
    ((Except.error e : Except Unit α) >>= f) = .error e := rfl

theorem attachFirst_ok {x : Json} (hx : x.isObj = true)
    (hat : objp x "attachmentType" = true) :
    ∃ us, attachFirst x = .ok us := by
  have hat2 : (getDJ x "attachmentType" (.obj [])).isObj = true := hat
  obtain ⟨kvs, rfl⟩ := isObj_elim hx
  obtain ⟨kvs2, hk2⟩ := isObj_elim hat2
  unfold attachFirst
  simp [mget, mgetD, hk2, exc_bind_ok, exc_pure_ok]

theorem biddFirst_ok {x : Json} (hx : x.isObj = true) :
    ∃ us, biddFirst x = .ok us := by
  obtain ⟨kvs, rfl⟩ := isObj_elim hx
  unfold biddFirst
  simp [mget, exc_bind_ok, exc_pure_ok]

theorem ciCancel_ok {v : Json} (h1 : objp v "timeZone" = true)
    (h2 : objp v "signedData" = true) : ∃ us, ciCancel v = .ok us := by
  have h1b : (getDJ v "timeZone" (.obj [])).isObj = true := h1
  have h2b : (getDJ v "signedData" (.obj [])).isObj = true := h2
  obtain ⟨k1, hk1⟩ := isObj_elim h1b
  obtain ⟨k2, hk2⟩ := isObj_elim h2b
  unfold ciCancel
  simp [hk1, hk2, mget, exc_bind_ok, exc_pure_ok]

theorem ciReport_ok {v : Json} (h1 : objp v "timeZone" = true)
    (h2 : objp v "signedData" = true) : ∃ us, ciReport v = .ok us := by
  have h1b : (getDJ v "timeZone" (.obj [])).isObj = true := h1
  have h2b : (getDJ v "signedData" (.obj [])).isObj = true := h2
  obtain ⟨k1, hk1⟩ := isObj_elim h1b
  obtain ⟨k2, hk2⟩ := isObj_elim h2b
  unfold ciReport
  simp [hk1, hk2, mget, exc_bind_ok, exc_pure_ok]

theorem ciDefault_ok {v : Json} (h1 : objp v "timeZone" = true)
    (h2 : objp v "signedData" = true) : ∃ us, ciDefault v = .ok us := by
  have h1b : (getDJ v "timeZone" (.obj [])).isObj = true := h1
  have h2b : (getDJ v "signedData" (.obj [])).isObj = true := h2
  obtain ⟨k1, hk1⟩ := isObj_elim h1b
  obtain ⟨k2, hk2⟩ := isObj_elim h2b
  unfold ciDefault
  simp [hk1, hk2, mget, exc_bind_ok, exc_pure_ok]

theorem ciDecision_ok {d v : Json} (h1 : objp v "timeZone" = true)
    (h2 : objp v "signedData" = true) (hd : wfDecision d = true) :
    ∃ us, ciDecision d v = .ok us := by
  simp only [wfDecision, Bool.and_eq_true] at hd
  obtain ⟨⟨⟨⟨⟨hho, hbo⟩, hsi⟩, hpo⟩, hat⟩, hbf⟩ := hd
  have h1b : (getDJ v "timeZone" (.obj [])).isObj = true := h1
  have h2b : (getDJ v "signedData" (.obj [])).isObj = true := h2
  have hhob : (getDJ d "hostingOrg" (.obj [])).isObj = true := hho
  have hbob : (getDJ d "bidderOrg" (.obj [])).isObj = true := hbo
  have hsib : (getDJ d "stockInfo" (.obj [])).isObj = true := hsi
  have hpob : (getDJ d "privatizationObject" (.obj [])).isObj = true := hpo
  obtain ⟨ka, hka⟩ := isObj_elim h1b
  obtain ⟨kb, hkb⟩ := isObj_elim h2b
  obtain ⟨kc, hkc⟩ := isObj_elim hhob
  obtain ⟨kd, hkd⟩ := isObj_elim hbob
  obtain ⟨ke, hke⟩ := isObj_elim hsib
  obtain ⟨kf, hkf⟩ := isObj_elim hpob
  have hattUpd : ∃ usA,
      (if (getDJ d "attachments" (.arr [])).truthy then
        match getDJ d "attachments" (.arr []) with
        | .arr (x :: _) => attachFirst x
        | _ => .error ()
      else Except.ok []) = .ok usA := by
    by_cases hT : (getDJ d "attachments" (.arr [])).truthy = true
    · simp only [hT] at hat
      cases harr : getDJ d "attachments" (.arr []) with
      | arr xs =>
        cases xs with
        | nil => rw [harr] at hT; simp [Json.truthy] at hT
        | cons x xt =>
          rw [harr] at hat
          simp only [if_true] at hat
          simp only [Bool.and_eq_true] at hat
          simp only [hT, if_true, harr]
          exact attachFirst_ok hat.1 hat.2
      | null => rw [harr] at hat; simp at hat
      | bool b => rw [harr] at hat; simp at hat
      | num n => rw [harr] at hat; simp at hat
      | str s => rw [harr] at hat; simp at hat
      | obj kvs => rw [harr] at hat; simp at hat
    · simp only [Bool.not_eq_true] at hT
      refine ⟨[], ?_⟩
      simp [hT]
  have hbfUpd : ∃ usB,
      (if (getDJ d "biddForms" (.arr [])).truthy then
        match getDJ d "biddForms" (.arr []) with
        | .arr (x :: _) => biddFirst x
        | _ => .error ()
      else Except.ok []) = .ok usB := by
    by_cases hT : (getDJ d "biddForms" (.arr [])).truthy = true
    · simp only [hT] at hbf
      cases harr : getDJ d "biddForms" (.arr []) with
      | arr xs =>
        cases xs with
        | nil => rw [harr] at hT; simp [Json.truthy] at hT
        | cons x xt =>
          rw [harr] at hbf
          simp only [if_true] at hbf
          simp only [hT, if_true, harr]
          exact biddFirst_ok hbf
      | null => rw [harr] at hbf; simp at hbf
      | bool b => rw [harr] at hbf; simp at hbf
      | num n => rw [harr] at hbf; simp at hbf
      | str s => rw [harr] at hbf; simp at hbf
      | obj kvs => rw [harr] at hbf; simp at hbf
    · simp only [Bool.not_eq_true] at hT
      refine ⟨[], ?_⟩
      simp [hT]
  obtain ⟨usA, hA⟩ := hattUpd
  obtain ⟨usB, hB⟩ := hbfUpd
  unfold ciDecision
  simp only [hka, hkb, hkc, hkd, hke, hkf]
  simp [mget, exc_bind_ok, exc_pure_ok, hA, hB]

theorem reportUpdates_ok {v : Json} (hw : wfReport v = true) :
    ∃ us, reportUpdates v = .ok us := by
  simp only [wfReport, Bool.and_eq_true] at hw
  obtain ⟨⟨⟨⟨⟨h1, h2⟩, h3⟩, h4⟩, ⟨⟨h5a, h5b⟩, h5c⟩⟩, ⟨⟨h6a, h6b⟩, h6c⟩⟩ := hw
  have h1b : (getDJ v "enterpriseData" (.obj [])).isObj = true := h1
  have h2b : (getDJ v "companiesData" (.obj [])).isObj = true := h2
  have h3b : (getDJ v "otherPropertyData" (.obj [])).isObj = true := h3
  have h4b : (getDJ v "revenuesData" (.obj [])).isObj = true := h4
  have h5ab : (getDJ (getDJ v "companiesData" (.obj [])) "auction" (.obj [])).isObj = true := h5a
  have h5bb : (getDJ (getDJ v "companiesData" (.obj [])) "publicOffer" (.obj [])).isObj = true := h5b
  have h5cb : (getDJ (getDJ v "companiesData" (.obj [])) "competition" (.obj [])).isObj = true := h5c
  have h6ab : (getDJ (getDJ v "otherPropertyData" (.obj [])) "auction" (.obj [])).isObj = true := h6a
  have h6bb : (getDJ (getDJ v "otherPropertyData" (.obj [])) "publicOffer" (.obj [])).isObj = true := h6b
  have h6cb : (getDJ (getDJ v "otherPropertyData" (.obj [])) "competition" (.obj [])).isObj = true := h6c
  obtain ⟨ke, hke⟩ := isObj_elim h1b
  obtain ⟨kc, hkc⟩ := isObj_elim h2b
  obtain ⟨ko, hko⟩ := isObj_elim h3b
  obtain ⟨kr, hkr⟩ := isObj_elim h4b
  rw [hkc] at h5ab h5bb h5cb
  rw [hko] at h6ab h6bb h6cb
  obtain ⟨kca, hkca⟩ := isObj_elim h5ab
  obtain ⟨kcp, hkcp⟩ := isObj_elim h5bb
  obtain ⟨kcc, hkcc⟩ := isObj_elim h5cb
  obtain ⟨koa, hkoa⟩ := isObj_elim h6ab
  obtain ⟨kop, hkop⟩ := isObj_elim h6bb
  obtain ⟨koc, hkoc⟩ := isObj_elim h6cb
  unfold reportUpdates
  simp [hke, hkc, hko, hkr, hkca, hkcp, hkcc, hkoa, hkop, hkoc,
        mget, mgetD, exc_bind_ok, exc_pure_ok]

theorem scalarUpdates_ok (dt : DocType) (k : String) (v : Json)
    (htz : (k == "timeZone" && !(dt == DocType.privatizationDecision)) = false)
    (hbo : (k == "bidderOrg" && !(dt == DocType.privatizationDecision)) = false)
    (hbrf : (k == "budgetRevenueForecast") = false) :
    ∃ us, scalarUpdates dt k v = .ok us := by
  unfold scalarUpdates
  simp only [htz, hbo, hbrf, Bool.false_eq_true, if_false]
  exact ⟨_, rfl⟩

theorem entryUpdates_ok (dt : DocType) (d : Json) (k : String) (v : Json)
    (hw : wfEntry dt d k v = true) : ∃ us, entryUpdates dt d k v = .ok us := by
  cases v with
  | obj kvs =>
    simp only [entryUpdates]
    simp only [wfEntry] at hw
    by_cases h1 : (k == "commonInfo") = true
    · have hk : k = "commonInfo" := by simpa using h1
      subst hk
      simp only [beq_self_eq_true, if_true] at hw
      unfold dictUpdates
      simp only [beq_self_eq_true, if_true]
      simp only [Bool.and_eq_true] at hw
      obtain ⟨⟨hz, hs⟩, hdec⟩ := hw
      cases dt with
      | planCancel => simpa using ciCancel_ok hz hs
      | planReport => simpa using ciReport_ok hz hs
      | privatizationDecision =>
        simp only [beq_self_eq_true, if_true] at hdec
        simpa using ciDecision_ok hz hs hdec
      | privatizationPlan => simpa using ciDefault_ok hz hs
    · simp only [Bool.not_eq_true] at h1
      simp only [h1] at hw
      by_cases h8 : (k == "reportData") = true
      · simp only [h8, if_true] at hw
        unfold dictUpdates
        simp only [h1, h8, Bool.false_eq_true, if_false, if_true]
        exact reportUpdates_ok hw
      · simp only [Bool.not_eq_true] at h8
        unfold dictUpdates
        simp only [h1, h8, Bool.false_eq_true, if_false]
        exact ⟨_, rfl⟩
  | arr xs =>
    simp only [entryUpdates]
    simp only [wfEntry] at hw
    unfold listUpdates
    by_cases hA : (k == "attachments" && !(dt == DocType.privatizationDecision)) = true
    · simp only [hA, if_true] at hw ⊢
      cases xs with
      | nil => exact ⟨[], rfl⟩
      | cons x xt =>
        simp only [Bool.and_eq_true] at hw
        exact attachFirst_ok hw.1 hw.2
    · simp only [Bool.not_eq_true] at hA
      simp only [hA] at hw
      simp only [hA, Bool.false_eq_true, if_false]
      by_cases hB : (k == "biddForms" && !(dt == DocType.privatizationDecision)) = true
      · simp only [hB, if_true] at hw ⊢
        cases xs with
        | nil => exact ⟨[], rfl⟩
        | cons x xt => exact biddFirst_ok hw
      · simp only [Bool.not_eq_true] at hB
        simp only [hB, Bool.false_eq_true, if_false]
        exact ⟨[], rfl⟩
  | null =>
    simp only [wfEntry, Bool.not_eq_eq_eq_not, Bool.not_true, Bool.or_eq_false_iff] at hw
    exact scalarUpdates_ok dt k .null hw.1.1 hw.1.2 hw.2
  | bool b =>
    simp only [wfEntry, Bool.not_eq_eq_eq_not, Bool.not_true, Bool.or_eq_false_iff] at hw
    exact scalarUpdates_ok dt k (.bool b) hw.1.1 hw.1.2 hw.2
  | num n =>
    simp only [wfEntry, Bool.not_eq_eq_eq_not, Bool.not_true, Bool.or_eq_false_iff] at hw
    exact scalarUpdates_ok dt k (.num n) hw.1.1 hw.1.2 hw.2
  | str s =>
    simp only [wfEntry, Bool.not_eq_eq_eq_not, Bool.not_true, Bool.or_eq_false_iff] at hw
    exact scalarUpdates_ok dt k (.str s) hw.1.1 hw.1.2 hw.2

theorem mapM_ok {α β : Type} (f : α → Except Unit β) :
    ∀ (l : List α), (∀ a ∈ l, ∃ b, f a = .ok b) →
    ∃ bs, l.mapM f = .ok bs := by
  intro l
  induction l with
  | nil => intro _; exact ⟨[], rfl⟩
  | cons a as ih =>
    intro h
    obtain ⟨b, hb⟩ := h a (by simp)
    obtain ⟨bs, hbs⟩ := ih (fun x hx => h x (by simp [hx]))
    refine ⟨b :: bs, ?_⟩
    rw [List.mapM_cons, hb, hbs]
    rfl

/-- Well-shaped documents flatten without an exception. -/
theorem flattenDoc_ok (dt : DocType) (d : Json) (i : Option Int)
    (hw : wfDoc dt d = true) : ∃ m, flattenDoc dt d i = .ok m := by
  cases d with
  | obj kvs =>
    simp only [wfDoc, List.all_eq_true] at hw
    obtain ⟨uss, huss⟩ :=
      mapM_ok (fun kv : String × Json => entryUpdates dt (.obj kvs) kv.1 kv.2) kvs
        (fun kv hkv => entryUpdates_ok dt (.obj kvs) kv.1 kv.2 (hw kv hkv))
    refine ⟨uss.foldl applyUpdates (flattenInit i), ?_⟩
    simp only [flattenDoc]
    rw [huss]
    rfl
  | null => simp [wfDoc] at hw
  | bool b => simp [wfDoc] at hw
  | num n => simp [wfDoc] at hw
  | str s => simp [wfDoc] at hw
  | arr xs => simp [wfDoc] at hw

/-! ## Key-presence lemmas for the flattened map -/

theorem hasKeyF_setF_mono (m : FlatMap) (k k2 : String) (v : Json)
    (h : hasKeyF m k = true) : hasKeyF (setF m k2 v) k = true := by
  unfold setF
  by_cases hc : m.any (fun p => p.1 == k2)
  · simp only [hc, if_true]
    simp only [hasKeyF, List.any_map, List.any_eq_true] at h ⊢
    obtain ⟨p, hp, hpk⟩ := h
    refine ⟨p, hp, ?_⟩
    by_cases hk2 : (p.1 == k2) = true
    · have : p.1 = k2 := by simpa using hk2
      simp [Function.comp, hk2, ← this, hpk]
    · simp only [Bool.not_eq_true] at hk2
      simp [Function.comp, hk2, hpk]
  · simp only [hc, if_false, Bool.false_eq_true]
    simp only [hasKeyF, List.any_append]
    simp [hasKeyF] at h
    simp [h]

theorem hasKeyF_applyUpdates_mono (k : String) :
    ∀ (us : List (String × Json)) (m : FlatMap),
    hasKeyF m k = true → hasKeyF (applyUpdates m us) k = true := by
  intro us
  induction us with
  | nil => intro m h; exact h
  | cons u ut ih =>
    intro m h
    simp only [applyUpdates, List.foldl_cons]
    exact ih (setF m u.1 u.2) (hasKeyF_setF_mono m k u.1 u.2 h)

theorem hasKeyF_foldl_mono (k : String) :
    ∀ (uss : List (List (String × Json))) (m : FlatMap),
    hasKeyF m k = true → hasKeyF (uss.foldl applyUpdates m) k = true := by
  intro uss
  induction uss with
  | nil => intro m h; exact h
  | cons us ust ih =>
    intro m h
    simp only [List.foldl_cons]
    exact ih (applyUpdates m us) (hasKeyF_applyUpdates_mono k us m h)

/-- Flattening with a detail id keeps the foreign-key field. -/
theorem flattenDoc_hasFK (dt : DocType) (d : Json) (i : Int) (m : FlatMap)
    (h : flattenDoc dt d (some i) = .ok m) :
    hasKeyF m "privatizationplansdetail_id" = true := by
  cases d with
  | obj kvs =>
    simp only [flattenDoc] at h
    cases huss : kvs.mapM (fun kv => entryUpdates dt (.obj kvs) kv.1 kv.2) with
    | error e =>
      rw [huss] at h
      rw [exc_bind_err] at h
      cases h
    | ok uss =>
      rw [huss] at h
      have hm : m = uss.foldl applyUpdates (flattenInit (some i)) := by
        have := h
        simp only [exc_bind_ok, exc_pure_ok] at this
        cases this
        rfl
      rw [hm]
      exact hasKeyF_foldl_mono _ uss (flattenInit (some i)) (by rfl)
  | null => exact absurd h (by simp [flattenDoc])
  | bool b => exact absurd h (by simp [flattenDoc])
  | num n => exact absurd h (by simp [flattenDoc])
  | str s => exact absurd h (by simp [flattenDoc])
  | arr xs => exact absurd h (by simp [flattenDoc])

theorem hasKeyF_ne_nil {m : FlatMap} {k : String}
    (h : hasKeyF m k = true) : m.isEmpty = false := by
  cases m with
  | nil => simp [hasKeyF] at h
  | cons a t => rfl

/-- With a detail id supplied, a `false` return of `process_document_file`
always leaves the state unchanged: the flattened map is never empty, so
the only `false` paths are the pre-flattening guards and the rolled-back
insert conflict. -/
theorem processDoc_false_unchanged (dt : DocType) (fd : Json) (n : Int)
    (st : DocState) (st2 : DocState)
    (h : processDoc dt fd (some n) st = .ok (false, st2)) :
    st2 = st := by
  unfold processDoc at h
  cases h1 : mgetD fd "exportObject" (.obj []) with
  | error e => rw [h1, exc_bind_err] at h; cases h
  | ok eo =>
  rw [h1, exc_bind_ok] at h
  cases h2 : mgetD eo "structuredObject" (.obj []) with
  | error e => rw [h2, exc_bind_err] at h; cases h
  | ok so =>
  rw [h2, exc_bind_ok] at h
  by_cases h3 : so.truthy = true
  case neg =>
    simp only [Bool.not_eq_true] at h3
    rw [h3] at h
    simp only [Bool.not_false, if_true, exc_pure_ok] at h
    cases h
    rfl
  case pos =>
  rw [h3] at h
  simp only [Bool.not_true, Bool.false_eq_true, if_false] at h
  cases h4 : mgetD so (dtKey dt) (.obj []) with
  | error e => rw [h4, exc_bind_err] at h; cases h
  | ok docd =>
  rw [h4, exc_bind_ok] at h
  by_cases h5 : docd.truthy = true
  case neg =>
    simp only [Bool.not_eq_true] at h5
    rw [h5] at h
    simp only [Bool.not_false, if_true, exc_pure_ok] at h
    cases h
    rfl
  case pos =>
  rw [h5] at h
  simp only [Bool.not_true, Bool.false_eq_true, if_false] at h
  cases h6 : flattenDoc dt docd (some n) with
  | error e => rw [h6, exc_bind_err] at h; cases h
  | ok m =>
  rw [h6, exc_bind_ok] at h
  cases h7 : objPhase dt docd m st.privObjects with
  | error e => rw [h7, exc_bind_err] at h; cases h
  | ok objs2 =>
  rw [h7, exc_bind_ok] at h
  have hne : m.isEmpty = false := hasKeyF_ne_nil (flattenDoc_hasFK dt docd n m h6)
  rw [hne] at h
  simp only [Bool.false_eq_true, if_false] at h
  cases h8 : insertDoc st.docTable m with
  | ok t2 =>
    rw [h8] at h
    simp only [exc_pure_ok] at h
    cases h
  | error e2 =>
    rw [h8] at h
    simp only [exc_pure_ok] at h
    cases h
    rfl

/-! ## Natural-key uniqueness preservation -/

theorem noSqlDupKeys_append_eq (ks : List Json) (k2 : Json) :
    noSqlDupKeys (ks ++ [k2]) =
      (noSqlDupKeys ks && ks.all (fun k => !(sqlEq k k2))) := by
  induction ks with
  | nil => simp [noSqlDupKeys]
  | cons a t ih =>
    simp only [List.cons_append, noSqlDupKeys, List.all_append, List.all_cons,
      List.all_nil, Bool.and_true, List.append_eq]
    rw [ih]
    simp [Bool.and_assoc, Bool.and_comm, Bool.and_left_comm]

theorem noSqlDupKeys_append (ks : List Json) (k2 : Json) :
    noSqlDupKeys (ks ++ [k2]) = true ↔
      (noSqlDupKeys ks = true ∧ ks.all (fun k => !(sqlEq k k2)) = true) := by
  rw [noSqlDupKeys_append_eq, Bool.and_eq_true]

theorem noDupStr_append_eq (ks : List String) (k2 : String) :
    noDupStr (ks ++ [k2]) =
      (noDupStr ks && ks.all (fun k => !(k == k2))) := by
  induction ks with
  | nil => simp [noDupStr]
  | cons a t ih =>
    simp only [List.cons_append, noDupStr, List.all_append, List.all_cons,
      List.all_nil, Bool.and_true, List.append_eq]
    rw [ih]
    simp [Bool.and_assoc, Bool.and_comm, Bool.and_left_comm]

theorem noDupStr_append (ks : List String) (k2 : String) :
    noDupStr (ks ++ [k2]) = true ↔
      (noDupStr ks = true ∧ ks.all (fun k => !(k == k2)) = true) := by
  rw [noDupStr_append_eq, Bool.and_eq_true]

theorem saveCatStep_pres (t : List CatRow) (item : Json) (t2 : List CatRow)
    (h : saveCatStep t item = some t2)
    (hi : noSqlDupKeys (t.map (fun r => r.source)) = true) :
    noSqlDupKeys (t2.map (fun r => r.source)) = true := by
  unfold saveCatStep at h
  cases hrow : catRowOf item with
  | none => rw [hrow] at h; cases h
  | some row =>
    rw [hrow] at h
    dsimp only at h
    by_cases hex : t.any (fun r => sqlEq r.source row.source) = true
    · rw [if_pos hex] at h
      cases h
      exact hi
    · simp only [Bool.not_eq_true] at hex
      rw [hex] at h
      simp only [Bool.false_eq_true, if_false] at h
      cases h
      unfold upsertCatBySource
      rw [hex]
      simp only [Bool.false_eq_true, if_false, List.map_append, List.map_cons,
        List.map_nil]
      rw [noSqlDupKeys_append]
      refine ⟨hi, ?_⟩
      simp only [List.all_eq_true]
      intro s hs
      rcases List.mem_map.mp hs with ⟨q, hq, rfl⟩
      have hqq := List.any_eq_false.mp hex q hq
      simp only [Bool.not_eq_true] at hqq
      simp [hqq]

theorem saveCategoryData_pres :
    ∀ (items : List Json) (t : List CatRow),
    noSqlDupKeys (t.map (fun r => r.source)) = true →
    noSqlDupKeys ((saveCategoryData t items).map (fun r => r.source)) = true := by
  intro items
  induction items with
  | nil => intro t h; exact h
  | cons it its ih =>
    intro t h
    unfold saveCategoryData
    cases hs : saveCatStep t it with
    | none => exact h
    | some t2 => exact ih t2 (saveCatStep_pres t it t2 hs h)

theorem saveDetail_pres (pid : Nat) (details : List DetailRow) (d : Json)
    (det2 : List DetailRow) (h : saveDetail pid details d = some det2)
    (hi : noSqlDupKeys (details.map (fun r => r.href)) = true) :
    noSqlDupKeys (det2.map (fun r => r.href)) = true := by
  unfold saveDetail at h
  cases d with
  | obj kvs =>
    dsimp only at h
    by_cases hex : details.any (fun r => sqlEq r.href (getDJ (.obj kvs) "href" (.str ""))) = true
    · rw [if_pos hex] at h
      cases h
      exact hi
    · simp only [Bool.not_eq_true] at hex
      rw [hex] at h
      simp only [Bool.false_eq_true, if_false] at h
      cases h
      simp only [List.map_append, List.map_cons, List.map_nil]
      rw [noSqlDupKeys_append]
      refine ⟨hi, ?_⟩
      simp only [List.all_eq_true]
      intro s hs
      rcases List.mem_map.mp hs with ⟨q, hq, rfl⟩
      have hqq := List.any_eq_false.mp hex q hq
      simp only [Bool.not_eq_true] at hqq
      simp [hqq]
  | null => cases h
  | bool b => cases h
  | num n => cases h
  | str s => cases h
  | arr xs => cases h

theorem saveDetails_pres (pid : Nat) :
    ∀ (ds : List Json) (details : List DetailRow),
    noSqlDupKeys (details.map (fun r => r.href)) = true →
    noSqlDupKeys ((saveDetails pid details ds).map (fun r => r.href)) = true := by
  intro ds
  induction ds with
  | nil => intro details h; exact h
  | cons d dt ih =>
    intro details h
    unfold saveDetails
    cases hs : saveDetail pid details d with
    | none => exact h
    | some det2 => exact ih det2 (saveDetail_pres pid details d det2 hs h)

theorem savePrivPlanData_pres (ps : PlansState) (source : String)
    (created valid structure_ data : Json)
    (hp : noDupStr (ps.plans.map (fun r => r.source)) = true)
    (hd : noSqlDupKeys (ps.details.map (fun r => r.href)) = true) :
    noDupStr ((savePrivPlanData ps source created valid structure_ data).plans.map
        (fun r => r.source)) = true ∧
    noSqlDupKeys ((savePrivPlanData ps source created valid structure_ data).details.map
        (fun r => r.href)) = true := by
  unfold savePrivPlanData
  cases hf : ps.plans.find? (fun r => r.source == source) with
  | some r =>
    simp only [hf]
    constructor
    · split
      · exact hp
      · split
        · exact hp
        · exact hp
    · split
      · exact hd
      · split
        · split
          · exact saveDetails_pres _ _ _ hd
          · exact hd
        · exact hd
  | none =>
    have hnew : ps.plans.all (fun q => !(q.source == source)) = true := by
      simp only [List.all_eq_true]
      intro q hq
      have h9 := List.find?_eq_none.mp hf q hq
      simp only [Bool.not_eq_true] at h9
      simp [h9]
    have hp2 : noDupStr ((ps.plans ++
        ([⟨ps.nextId, source, created, valid, structure_,
          (extractDateRange source).1, (extractDateRange source).2⟩] : List PlanRow)).map
        (fun r => r.source)) = true := by
      simp only [List.map_append, List.map_cons, List.map_nil]
      rw [noDupStr_append]
      refine ⟨hp, ?_⟩
      simp only [List.all_eq_true]
      intro s hs
      rcases List.mem_map.mp hs with ⟨q, hq, rfl⟩
      have := List.all_eq_true.mp hnew q hq
      simpa using this
    simp only [hf]
    constructor
    · split
      · exact hp2
      · split
        · exact hp2
        · exact hp2
    · split
      · exact hd
      · split
        · split
          · exact saveDetails_pres _ _ _ hd
          · exact hd
        · exact hd

theorem upsertPrivObj_keys (t : List PrivObjRow) (r : PrivObjRow)
    (hex : t.any (fun q => sqlEq q.objectnumber r.objectnumber) = true) :
    (upsertPrivObj t r).map (fun q => q.objectnumber) =
      t.map (fun q => q.objectnumber) := by
  unfold upsertPrivObj
  rw [if_pos hex, List.map_map]
  apply List.map_congr_left
  intro q _
  by_cases hc : sqlEq q.objectnumber r.objectnumber = true
  · simp [Function.comp, hc]
  · simp only [Bool.not_eq_true] at hc
    simp [Function.comp, hc]

theorem upsertPrivObj_pres (t : List PrivObjRow) (r : PrivObjRow)
    (hi : noSqlDupKeys (t.map (fun q => q.objectnumber)) = true) :
    noSqlDupKeys ((upsertPrivObj t r).map (fun q => q.objectnumber)) = true := by
  by_cases hex : t.any (fun q => sqlEq q.objectnumber r.objectnumber) = true
  · rw [upsertPrivObj_keys t r hex]
    exact hi
  · simp only [Bool.not_eq_true] at hex
    unfold upsertPrivObj
    rw [hex]
    simp only [Bool.false_eq_true, if_false, List.map_append, List.map_cons,
      List.map_nil]
    rw [noSqlDupKeys_append]
    refine ⟨hi, ?_⟩
    simp only [List.all_eq_true]
    intro s hs
    rcases List.mem_map.mp hs with ⟨q, hq, rfl⟩
    have hqq := List.any_eq_false.mp hex q hq
    simp only [Bool.not_eq_true] at hqq
    simp [hqq]

theorem objFold_pres (pid : Json) :
    ∀ (xs : List Json) (t t2 : List PrivObjRow),
    xs.foldlM (fun acc o => do
      let r ← extractPrivObj pid o
      pure (upsertPrivObj acc r)) t = .ok t2 →
    noSqlDupKeys (t.map (fun q => q.objectnumber)) = true →
    noSqlDupKeys (t2.map (fun q => q.objectnumber)) = true := by
  intro xs
  induction xs with
  | nil =>
    intro t t2 h hi
    simp only [List.foldlM_nil] at h
    cases h
    exact hi
  | cons x xt ih =>
    intro t t2 h hi
    simp only [List.foldlM_cons] at h
    cases hre : extractPrivObj pid x with
    | error e => rw [hre, exc_bind_err] at h; cases h
    | ok r =>
      rw [hre, exc_bind_ok, exc_pure_ok, exc_bind_ok] at h
      exact ih (upsertPrivObj t r) t2 h (upsertPrivObj_pres t r hi)

theorem objPhase_pres (dt : DocType) (docd : Json) (m : FlatMap)
    (t t2 : List PrivObjRow) (h : objPhase dt docd m t = .ok t2)
    (hi : noSqlDupKeys (t.map (fun q => q.objectnumber)) = true) :
    noSqlDupKeys (t2.map (fun q => q.objectnumber)) = true := by
  unfold objPhase at h
  by_cases hc : (dt == DocType.privatizationPlan && hasKeyJ docd "privatizationObjects") = true
  · rw [if_pos hc] at h
    dsimp only at h
    cases hpo : getDJ docd "privatizationObjects" (.arr []) with
    | arr xs =>
      rw [hpo] at h
      dsimp only at h
      exact objFold_pres _ xs t t2 h hi
    | obj kvs =>
      rw [hpo] at h
      cases kvs with
      | nil => dsimp only at h; rw [exc_pure_ok] at h; cases h; exact hi
      | cons a b => dsimp only at h; cases h
    | str s =>
      rw [hpo] at h
      dsimp only at h
      by_cases hs : (s == "") = true
      · rw [if_pos hs, exc_pure_ok] at h; cases h; exact hi
      · simp only [Bool.not_eq_true] at hs
        rw [hs] at h
        simp only [Bool.false_eq_true, if_false] at h
        cases h
    | null => rw [hpo] at h; dsimp only at h; cases h
    | bool b => rw [hpo] at h; dsimp only at h; cases h
    | num n => rw [hpo] at h; dsimp only at h; cases h
  · simp only [Bool.not_eq_true] at hc
    rw [hc] at h
    simp only [Bool.false_eq_true, if_false, exc_pure_ok] at h
    cases h
    exact hi

theorem processDoc_objects_pres (dt : DocType) (fd : Json) (i : Option Int)
    (st : DocState) (b : Bool) (st2 : DocState)
    (h : processDoc dt fd i st = .ok (b, st2))
    (hi : noSqlDupKeys (st.privObjects.map (fun q => q.objectnumber)) = true) :
    noSqlDupKeys (st2.privObjects.map (fun q => q.objectnumber)) = true := by
  unfold processDoc at h
  cases h1 : mgetD fd "exportObject" (.obj []) with
  | error e => rw [h1, exc_bind_err] at h; cases h
  | ok eo =>
  rw [h1, exc_bind_ok] at h
  cases h2 : mgetD eo "structuredObject" (.obj []) with
  | error e => rw [h2, exc_bind_err] at h; cases h
  | ok so =>
  rw [h2, exc_bind_ok] at h
  by_cases h3 : so.truthy = true
  case neg =>
    simp only [Bool.not_eq_true] at h3
    rw [h3] at h
    simp only [Bool.not_false, if_true, exc_pure_ok] at h
    cases h
    exact hi
  case pos =>
  rw [h3] at h
  simp only [Bool.not_true, Bool.false_eq_true, if_false] at h
  cases h4 : mgetD so (dtKey dt) (.obj []) with
  | error e => rw [h4, exc_bind_err] at h; cases h
  | ok docd =>
  rw [h4, exc_bind_ok] at h
  by_cases h5 : docd.truthy = true
  case neg =>
    simp only [Bool.not_eq_true] at h5
    rw [h5] at h
    simp only [Bool.not_false, if_true, exc_pure_ok] at h
    cases h
    exact hi
  case pos =>
  rw [h5] at h
  simp only [Bool.not_true, Bool.false_eq_true, if_false] at h
  cases h6 : flattenDoc dt docd i with
  | error e => rw [h6, exc_bind_err] at h; cases h
  | ok m =>
  rw [h6, exc_bind_ok] at h
  cases h7 : objPhase dt docd m st.privObjects with
  | error e => rw [h7, exc_bind_err] at h; cases h
  | ok objs2 =>
  rw [h7, exc_bind_ok] at h
  have hobj := objPhase_pres dt docd m st.privObjects objs2 h7 hi
  by_cases h8 : m.isEmpty = true
  · rw [h8] at h
    simp only [if_true, exc_pure_ok] at h
    cases h
    exact hobj
  · simp only [Bool.not_eq_true] at h8
    rw [h8] at h
    simp only [Bool.false_eq_true, if_false] at h
    cases h9 : insertDoc st.docTable m with
    | ok t2 =>
      rw [h9] at h
      simp only [exc_pure_ok] at h
      cases h
      exact hobj
    | error e2 =>
      rw [h9] at h
      simp only [exc_pure_ok] at h
      cases h
      exact hi

theorem gstep_pres (st : GState) (op : IngestOp) (h : invG st = true) :
    invG (gstep st op) = true := by
  simp only [invG, Bool.and_eq_true] at h
  obtain ⟨⟨⟨hc, hp⟩, hd⟩, ho⟩ := h
  cases op with
  | cat items =>
    simp only [gstep, invG, Bool.and_eq_true]
    exact ⟨⟨⟨saveCategoryData_pres items st.cat hc, hp⟩, hd⟩, ho⟩
  | plans s c v str2 d =>
    have hres := savePrivPlanData_pres ⟨st.plans, st.details, st.nextPlanId⟩ s c v str2 d hp hd
    simp only [gstep, invG, Bool.and_eq_true]
    exact ⟨⟨⟨hc, hres.1⟩, hres.2⟩, ho⟩
  | doc dt fd i =>
    simp only [gstep]
    cases hpd : processDoc dt fd i ⟨st.docTables dt, st.privObjects⟩ with
    | ok r =>
      simp only [invG, Bool.and_eq_true]
      exact ⟨⟨⟨hc, hp⟩, hd⟩,
        processDoc_objects_pres dt fd i ⟨st.docTables dt, st.privObjects⟩ r.1 r.2 (by rw [hpd]) ho⟩
    | error e =>
      simp only [invG, Bool.and_eq_true]
      exact ⟨⟨⟨hc, hp⟩, hd⟩, ho⟩

/-! ## Selector and substring lemmas -/

theorem fddLoop_spec (net : String → Option Json) :
    ∀ (l : List SnapItem),
    (∀ it ∈ l, it.source.truthy = true →
      ∃ s, it.source = .str s ∧ (net s).isSome = true) →
    fddLoop net l = (match l.find? (nonEmptyAt net) with
      | some it => .data (payloadOf net it)
      | none => .meta) := by
  intro l
  induction l with
  | nil => intro _; rfl
  | cons it rest ih =>
    intro hok
    by_cases hs : it.source.truthy = true
    · obtain ⟨s, hsrc, hnet⟩ := hok it (by simp) hs
      obtain ⟨d, hd⟩ := Option.isSome_iff_exists.mp hnet
      unfold fddLoop
      rw [if_pos hs, hsrc]
      dsimp only
      rw [hd]
      dsimp only
      have hs2 : (Json.str s).truthy = true := by rw [← hsrc]; exact hs
      by_cases hdt : d.truthy = true
      · rw [if_pos hdt]
        have hne : nonEmptyAt net it = true := by
          simp [nonEmptyAt, payloadOf, hsrc, hs2, hd, hdt]
        rw [List.find?_cons_of_pos _ hne]
        simp [payloadOf, hsrc, hd]
      · simp only [Bool.not_eq_true] at hdt
        rw [hdt]
        simp only [Bool.false_eq_true, if_false]
        have hne : nonEmptyAt net it = false := by
          simp [nonEmptyAt, payloadOf, hsrc, hd, hdt]
        rw [List.find?_cons_of_neg _ (by simp [hne])]
        exact ih (fun x hx => hok x (by simp [hx]))
    · simp only [Bool.not_eq_true] at hs
      unfold fddLoop
      rw [hs]
      simp only [Bool.false_eq_true, if_false]
      have hne : nonEmptyAt net it = false := by simp [nonEmptyAt, hs]
      rw [List.find?_cons_of_neg _ (by simp [hne])]
      exact ih (fun x hx => hok x (by simp [hx]))

theorem startsW_iff : ∀ (n h : List Char), startsW n h = true ↔ n <+: h := by
  intro n
  induction n with
  | nil => intro h; simp [startsW]
  | cons a as ih =>
    intro h
    cases h with
    | nil => simp [startsW]
    | cons b bs =>
      simp [startsW, List.cons_prefix_cons, ih, Bool.and_eq_true, beq_iff_eq]

theorem hasSub_iff (n : List Char) : ∀ (h : List Char),
    hasSub n h = true ↔ n <:+: h := by
  intro h
  induction h with
  | nil => simp [hasSub, List.isEmpty_iff]
  | cons c rest ih =>
    simp [hasSub, startsW_iff, ih, List.infix_cons_iff, Bool.or_eq_true]

/-- Python `in` is transitive across nested substrings. -/
theorem pyIn_trans {a b c : String} (h1 : pyIn a b = true)
    (h2 : pyIn b c = true) : pyIn a c = true := by
  simp only [pyIn, hasSub_iff] at *
  exact h1.trans h2

/-! ## Conflict handling of the document insert -/

/-- A UNIQUE violation of the document insert is caught: the call returns
`False` and rolls the whole item (including the object upserts within the
same transaction) back; it does not abort the run. -/
theorem processDoc_conflict_skips (dt : DocType) (fd : Json) (i : Option Int)
    (st : DocState) (eo so docd : Json) (m : FlatMap)
    (objs2 : List PrivObjRow)
    (h1 : mgetD fd "exportObject" (.obj []) = .ok eo)
    (h2 : mgetD eo "structuredObject" (.obj []) = .ok so)
    (h3 : so.truthy = true)
    (h4 : mgetD so (dtKey dt) (.obj []) = .ok docd)
    (h5 : docd.truthy = true)
    (h6 : flattenDoc dt docd i = .ok m)
    (h7 : objPhase dt docd m st.privObjects = .ok objs2)
    (h8 : m.isEmpty = false)
    (h9 : docKeyConflict st.docTable m = true) :
    processDoc dt fd i st = .ok (false, st) := by
  unfold processDoc
  rw [h1, exc_bind_ok, h2, exc_bind_ok, h3]
  simp only [Bool.not_true, Bool.false_eq_true, if_false]
  rw [h4, exc_bind_ok, h5]
  simp only [Bool.not_true, Bool.false_eq_true, if_false]
  rw [h6, exc_bind_ok, h7, exc_bind_ok, h8]
  simp only [Bool.false_eq_true, if_false]
  unfold insertDoc
  rw [if_pos h9]
  rfl

/-! ## File-cache lemma -/

theorem find?_append_none {α : Type} (p : α → Bool) (x : α) :
    ∀ (l : List α), l.find? p = none → p x = true →
    (l ++ [x]).find? p = some x := by
  intro l
  induction l with
  | nil =>
    intro _ hx
    rw [List.nil_append, List.find?_cons_of_pos _ hx]
  | cons a t ih =>
    intro h hx
    have hpa : p a = false := by
      by_contra hcon
      simp only [Bool.not_eq_false] at hcon
      rw [List.find?_cons_of_pos _ hcon] at h
      cases h
    rw [List.find?_cons_of_neg _ (by simp [hpa])] at h
    rw [List.cons_append, List.find?_cons_of_neg _ (by simp [hpa])]
    exact ih h hx

/-! ## Claim-local concrete inputs -/

def c5doc (r : String) : Json := .obj [("id", Json.str "K1"), ("reason", Json.str r)]

def c5file (r : String) : Json :=
  .obj [("exportObject", .obj [("structuredObject", .obj [("planCancel", c5doc r)])])]

def c5run2 : Except Unit (Bool × DocState) := do
  let r1 ← processDoc .planCancel (c5file "R1") (some 5) ⟨[], []⟩
  processDoc .planCancel (c5file "R2") (some 5) r1.2

def c5mA : FlatMap := [("privatizationplansdetail_id", Json.num 5),
    ("id_field", Json.str "K1"), ("reason", Json.str "R1")]

def c6objX1 (nm : String) : Json :=
  .obj [("objectNumber", Json.str "X1"), ("name", Json.str nm)]

def c6fileId (nm : String) : Json :=
  .obj [("exportObject", .obj [("structuredObject", .obj [("privatizationPlan",
    .obj [("id", Json.str "D1"), ("privatizationObjects", Json.arr [c6objX1 nm])])])])]

def c6fileNoId (nm : String) : Json :=
  .obj [("exportObject", .obj [("structuredObject", .obj [("privatizationPlan",
    .obj [("privatizationObjects", Json.arr [c6objX1 nm])])])])]

/-- Ingest the same plan-document file twice through
`process_document_file` against an initially empty store. -/
def ingestTwice (f1 f2 : Json) : DocState :=
  match processDoc .privatizationPlan f1 (some 7) ⟨[], []⟩ with
  | .ok (_, s1) =>
    (match processDoc .privatizationPlan f2 (some 7) s1 with
     | .ok (_, s2) => s2
     | .error _ => s1)
  | .error _ => ⟨[], []⟩

/-! ## Claims -/

/-- C1: ingestion is idempotent on natural keys.  Starting from any state
whose category sources, plan sources, detail hrefs and privatization
object numbers are pairwise distinct (under SQL equality, where NULL
matches nothing), any sequence of ingestion operations — category-table
saves, plan/detail saves, document processing — preserves that
distinctness: reruns never create two rows for the same upstream
source URL, href, or object number. -/
theorem c1_ingestion_idempotent_keys (ops : List IngestOp) (st : GState)
    (h : invG st = true) : invG (ops.foldl gstep st) = true := by
  induction ops generalizing st with
  | nil => exact h
  | cons op t ih => exact ih (gstep st op) (gstep_pres st op h)

/-- C1 witness: a run that re-saves the same category item twice,
ingests a snapshot with one detail, and processes a plan document,
starting from the empty store. -/
theorem c1_witness : invG (List.foldl gstep ⟨[], [], [], 1, fun _ => [], []⟩
    [IngestOp.cat [Json.obj [("source", Json.str "s1")]],
     IngestOp.cat [Json.obj [("source", Json.str "s1")]],
     IngestOp.plans "u1" (Json.str "c") (Json.str "v") (Json.str "w")
       (Json.obj [("listObjects", Json.arr [Json.obj [("href", Json.str "h1")]])]),
     IngestOp.doc .privatizationPlan (c6fileId "Lot") (some 1)]) = true :=
  c1_ingestion_idempotent_keys _ _ (by rfl)

/-- C2 counterexample: a manifest with one descriptor whose provenance
holds 05.01.2024, whose payload is non-empty, selected for 06.01.2024 by
`fetch_privatization_plans_yesterday`: the claim says the fallback should
return that most recent non-empty descriptor, but the function returns no
data at all — its fallback only triggers when a date-matching descriptor
exists with an empty payload, never when no date matches. -/
theorem c2_counterexample :
    ySelect "06.01.2024"
      [⟨Json.str "u1", "за 05.01.2024", Json.null, Json.null, Json.null⟩]
      (fun s => if s == "u1" then some (Json.arr [Json.num 1]) else none) =
      .ok none ∧
    (Json.arr [Json.num 1]).truthy = true := ⟨rfl, rfl⟩

/-- C2 (amended): when no descriptor's provenance contains the target
date string, `fetch_privatization_plans_yesterday` selects nothing and
returns no data; the most-recent-non-empty fallback is implemented only
by the date-agnostic `fetch_dataset_data`, which (when every truthy
source fetch succeeds) returns the payload of the last manifest entry —
the chronologically most recent — whose fetched payload is non-empty,
and the manifest itself when there is none. -/
theorem c2_no_match_selects_nothing :
    (∀ (yStr : String) (items : List SnapItem) (net : String → Option Json),
      items.all (fun it => !(pyIn yStr it.provenance)) = true →
      ySelect yStr items net = .ok none) ∧
    (∀ (items : List SnapItem) (net : String → Option Json),
      (∀ it ∈ items, it.source.truthy = true →
        ∃ s, it.source = .str s ∧ (net s).isSome = true) →
      fetchDatasetData net items =
        (match items.reverse.find? (nonEmptyAt net) with
         | some it => .data (payloadOf net it)
         | none => .meta)) := by
  constructor
  · intro yStr items net hall
    have hfind : items.find? (fun it => pyIn yStr it.provenance) = none := by
      rw [List.find?_eq_none]
      intro x hx
      have hnx := List.all_eq_true.mp hall x hx
      simp only [Bool.not_eq_true'] at hnx
      simp [hnx]
    unfold ySelect
    rw [hfind]
    rfl
  · intro items net hok
    unfold fetchDatasetData
    exact fddLoop_spec net items.reverse
      (fun it hit => hok it (List.mem_reverse.mp hit))

/-- C2 witness: the no-match part on a singleton manifest, and the
fallback part returning the single non-empty payload. -/
theorem c2_witness :
    ySelect "x" [⟨Json.str "u", "prov", Json.null, Json.null, Json.null⟩]
      (fun _ => none) = .ok none ∧
    fetchDatasetData (fun _ => some (Json.arr [Json.num 1]))
      [⟨Json.str "u", "p", Json.null, Json.null, Json.null⟩] =
      .data (Json.arr [Json.num 1]) :=
  ⟨c2_no_match_selects_nothing.1 "x" _ _ (by decide),
   (c2_no_match_selects_nothing.2 _ _ (fun it hit _ => by
      simp only [List.mem_singleton] at hit
      subst hit
      exact ⟨"u", rfl, rfl⟩)).trans (by rfl)⟩

/-- C3 counterexample: re-ingesting a category item with source `s` and a
changed `created` value leaves the table exactly as it was (the pre-check
skips the row with a `continue`), so the non-key fields are NOT refreshed
to the second call's values as the claim states. -/
theorem c3_counterexample :
    saveCategoryData
        (saveCategoryData [] [Json.obj [("source", Json.str "s"), ("created", Json.str "a")]])
        [Json.obj [("source", Json.str "s"), ("created", Json.str "b")]] =
      saveCategoryData [] [Json.obj [("source", Json.str "s"), ("created", Json.str "a")]] ∧
    (saveCategoryData [] [Json.obj [("source", Json.str "s"), ("created", Json.str "a")]]).map
        (fun r => r.created) = [Json.str "a"] ∧
    Json.str "a" ≠ Json.str "b" := by
  refine ⟨rfl, rfl, ?_⟩
  intro hcon
  injection hcon with h2
  exact absurd h2 (by decide)

/-- C3 (amended): re-ingesting an existing plan-level record creates no
second row, but the existing row is left entirely unchanged — the
existence pre-check skips it before the upsert, so non-key fields keep
their first-sighting values (the ON CONFLICT refresh clause is
unreachable in a sequential rerun); the existing row's id is reused. -/
theorem c3_resight_skips :
    (∀ (t : List CatRow) (item : Json) (row : CatRow),
      catRowOf item = some row →
      t.any (fun r => sqlEq r.source row.source) = true →
      saveCatStep t item = some t) ∧
    (∀ (ps : PlansState) (s : String) (c v w d : Json) (r : PlanRow),
      ps.plans.find? (fun q => q.source == s) = some r →
      (savePrivPlanData ps s c v w d).plans = ps.plans ∧
      (savePrivPlanData ps s c v w d).nextId = ps.nextId) := by
  constructor
  · intro t item row hrow hex
    unfold saveCatStep
    rw [hrow]
    dsimp only
    rw [if_pos hex]
  · intro ps s c v w d r hf
    unfold savePrivPlanData
    rw [hf]
    dsimp only
    constructor
    · split <;> rfl
    · split <;> rfl

/-- C3 witness: a one-row category table re-ingesting its own source, and
a one-plan state re-saving its own source. -/
theorem c3_witness :
    saveCatStep [⟨Json.str "s", Json.str "a", Json.str "", Json.str "",
        Json.str "", none, none⟩] (Json.obj [("source", Json.str "s")]) =
      some [⟨Json.str "s", Json.str "a", Json.str "", Json.str "",
        Json.str "", none, none⟩] ∧
    (savePrivPlanData ⟨[⟨1, "u", Json.null, Json.null, Json.null, none, none⟩], [], 2⟩
        "u" Json.null Json.null Json.null Json.null).plans =
      [⟨1, "u", Json.null, Json.null, Json.null, none, none⟩] :=
  ⟨c3_resight_skips.1 _ _ ⟨Json.str "s", Json.str "", Json.str "", Json.str "",
      Json.str "", none, none⟩ rfl (by rfl),
   (c3_resight_skips.2 ⟨[⟨1, "u", Json.null, Json.null, Json.null, none, none⟩], [], 2⟩
      "u" Json.null Json.null Json.null Json.null
      ⟨1, "u", Json.null, Json.null, Json.null, none, none⟩ (by rfl)).1⟩

/-- C4 counterexample: a syntactically valid plan document whose
top-level `timeZone` key holds a scalar makes the flattener call `.get`
on that scalar, which raises (AttributeError) instead of returning a
field map — so flattening is not total over all JSON documents of the
known types. -/
theorem c4_counterexample :
    flattenDoc .privatizationPlan (.obj [("timeZone", .str "UTC")]) none =
      .error () := rfl

/-- C4 (amended): for every document of a known type whose entries are
well shaped (each block the flattener descends into is an object when
present, repeatable arrays hold objects, and the top-level `timeZone`,
`bidderOrg` and `budgetRevenueForecast` keys are not scalars), flattening
terminates and returns a field map without raising; and missing nested
keys yield null fields, as on a `planCancel` whose `commonInfo` is empty:
every projected field is null rather than an error. -/
theorem c4_flatten_total_on_wf :
    (∀ (dt : DocType) (d : Json) (i : Option Int), wfDoc dt d = true →
      ∃ m, flattenDoc dt d i = .ok m) ∧
    flattenDoc .planCancel (.obj [("commonInfo", .obj [])]) none =
      .ok [("plannumber", .null), ("name", .null), ("cancellationdate", .null),
           ("timezone_code", .null), ("timezone_name", .null),
           ("signeddata_id", .null), ("signeddata_size", .null),
           ("signeddata_hash", .null), ("signeddata_filetype", .null)] :=
  ⟨fun dt d i hw => flattenDoc_ok dt d i hw, rfl⟩

/-- C4 witness: a well-shaped report document flattens successfully. -/
theorem c4_witness :
    wfDoc .planReport (.obj [("year", .num 2024)]) = true ∧
    (∃ m, flattenDoc .planReport (.obj [("year", .num 2024)]) none = .ok m) :=
  ⟨by decide, c4_flatten_total_on_wf.1 .planReport _ none (by decide)⟩

/-- C5 counterexample: processing the same `planCancel` document (embedded
id `K1`) twice, the second insert hits the UNIQUE `id_field` constraint;
the violation is NOT resolved by updating the existing row — the second
call reports failure and the stored row keeps its first-run `reason`
value `R1`, not the newly supplied `R2`. -/
theorem c5_counterexample :
    c5run2 = .ok (false, ⟨[c5mA], []⟩) ∧ Json.str "R1" ≠ Json.str "R2" := by
  refine ⟨rfl, ?_⟩
  intro hcon
  injection hcon with h2
  exact absurd h2 (by decide)

/-- C5 (amended): a unique-key violation never aborts the run, but only
the object-number key is resolved by update: the document-id violation is
caught, the transaction rolled back (object upserts included) and the
item skipped with the stored row unchanged, while an `objectnumber`
conflict is absorbed by `ON CONFLICT DO UPDATE`, leaving the table's size
and key set unchanged. -/
theorem c5_conflict_resolution :
    (∀ (dt : DocType) (fd : Json) (i : Option Int) (st : DocState)
      (eo so docd : Json) (m : FlatMap) (objs2 : List PrivObjRow),
      mgetD fd "exportObject" (.obj []) = .ok eo →
      mgetD eo "structuredObject" (.obj []) = .ok so →
      so.truthy = true →
      mgetD so (dtKey dt) (.obj []) = .ok docd →
      docd.truthy = true →
      flattenDoc dt docd i = .ok m →
      objPhase dt docd m st.privObjects = .ok objs2 →
      m.isEmpty = false →
      docKeyConflict st.docTable m = true →
      processDoc dt fd i st = .ok (false, st)) ∧
    (∀ (t : List PrivObjRow) (r : PrivObjRow),
      t.any (fun q => sqlEq q.objectnumber r.objectnumber) = true →
      (upsertPrivObj t r).length = t.length ∧
      (upsertPrivObj t r).map (fun q => q.objectnumber) =
        t.map (fun q => q.objectnumber)) := by
  constructor
  · exact processDoc_conflict_skips
  · intro t r hex
    refine ⟨?_, upsertPrivObj_keys t r hex⟩
    unfold upsertPrivObj
    rw [if_pos hex]
    simp

/-- C5 witness: the concrete `K1` conflict is caught and skipped, and a
concrete object-number conflict is absorbed by update. -/
theorem c5_witness :
    processDoc .planCancel (c5file "R2") (some 5) ⟨[c5mA], []⟩ =
      .ok (false, ⟨[c5mA], []⟩) ∧
    (upsertPrivObj
      [⟨Json.num 1, Json.str "X1", Json.null, Json.str "A", Json.null, Json.null,
        Json.null, Json.null, Json.null, Json.null, Json.null, Json.null, Json.null,
        Json.null, Json.null, Json.null, Json.null, Json.null, Json.null⟩]
      ⟨Json.num 2, Json.str "X1", Json.null, Json.str "B", Json.null, Json.null,
        Json.null, Json.null, Json.null, Json.null, Json.null, Json.null, Json.null,
        Json.null, Json.null, Json.null, Json.null, Json.null, Json.null⟩).length = 1 :=
  ⟨c5_conflict_resolution.1 .planCancel (c5file "R2") (some 5) ⟨[c5mA], []⟩
      (.obj [("structuredObject", .obj [("planCancel", c5doc "R2")])])
      (.obj [("planCancel", c5doc "R2")]) (c5doc "R2")
      [("privatizationplansdetail_id", Json.num 5), ("id_field", Json.str "K1"),
       ("reason", Json.str "R2")] []
      rfl rfl rfl rfl rfl rfl rfl rfl rfl,
   (c5_conflict_resolution.2 _ _ (by rfl)).1⟩

/-- C6 counterexample: a plan document with embedded id `D1` and
`privatizationObjects: [{objectNumber:"X1", name:"Lot"}]` ingested twice,
the second time with name `"Lot2"`: exactly one object row remains, but
its name is the FIRST ingested value `"Lot"` — the second run's object
upsert is rolled back together with the failed duplicate document insert
(shared transaction), so the name does not equal the latest value as the
claim states. -/
theorem c6_counterexample :
    (ingestTwice (c6fileId "Lot") (c6fileId "Lot2")).privObjects.map
      (fun r => (r.objectnumber, r.name)) = [(Json.str "X1", Json.str "Lot")] ∧
    Json.str "Lot" ≠ Json.str "Lot2" := by
  refine ⟨rfl, ?_⟩
  intro hcon
  injection hcon with h2
  exact absurd h2 (by decide)

/-- C6 (amended): double ingestion leaves exactly one PrivatizationObject
row for `X1`; its name equals the latest ingested value only when the
second document insert commits (e.g. the document carries no embedded
id); when the document's id is already stored, the second transaction is
rolled back and the name keeps the first ingested value. -/
theorem c6_object_upsert_rollback :
    (ingestTwice (c6fileId "Lot") (c6fileId "Lot2")).privObjects.map
      (fun r => (r.objectnumber, r.name)) = [(Json.str "X1", Json.str "Lot")] ∧
    (ingestTwice (c6fileNoId "Lot") (c6fileNoId "Lot2")).privObjects.map
      (fun r => (r.objectnumber, r.name)) = [(Json.str "X1", Json.str "Lot2")] :=
  ⟨rfl, rfl⟩

/-- C7 counterexample: snapshot A's provenance contains the required
substring "за 05.01.2024" but also happens to contain "06.01.2024";
selecting for 06.01.2024 then returns BOTH descriptors, not exactly B —
the free-text substring match over-selects. -/
theorem c7_counterexample :
    pyIn "за 05.01.2024" "за 06.01.2024 и за 05.01.2024" = true ∧
    pyIn "за 06.01.2024" "за 06.01.2024" = true ∧
    (selectForDates ["06.01.2024"]
      [⟨Json.str "uA", "за 06.01.2024 и за 05.01.2024", Json.null, Json.null, Json.null⟩,
       ⟨Json.str "uB", "за 06.01.2024", Json.null, Json.null, Json.null⟩]).map
        (fun p => p.1.source) = [Json.str "uA", Json.str "uB"] :=
  ⟨rfl, rfl, rfl⟩

/-- C7 (amended): for a two-snapshot manifest where A's provenance
contains "за 05.01.2024" and additionally does not contain the bare date
string "06.01.2024", while B's provenance contains "за 06.01.2024",
selecting for the date 06.01.2024 returns exactly B tagged with that
date, and no other descriptor. -/
theorem c7_selects_only_matching
    (srcA ca va sa srcB cb vb sb : Json) (provA provB : String)
    (hA : pyIn "за 05.01.2024" provA = true)
    (hB : pyIn "за 06.01.2024" provB = true)
    (hAn : pyIn "06.01.2024" provA = false) :
    selectForDates ["06.01.2024"]
      [⟨srcA, provA, ca, va, sa⟩, ⟨srcB, provB, cb, vb, sb⟩] =
      [(⟨srcB, provB, cb, vb, sb⟩, "06.01.2024")] := by
  have hBmatch : pyIn "06.01.2024" provB = true :=
    pyIn_trans (by rfl) hB
  have hfA : List.find? (fun ds => pyIn ds provA) ["06.01.2024"] = none := by
    simp [List.find?, hAn]
  have hfB : List.find? (fun ds => pyIn ds provB) ["06.01.2024"] =
      some "06.01.2024" := by
    simp [List.find?, hBmatch]
  unfold selectForDates
  simp only [List.filterMap_cons, List.filterMap_nil]
  rw [hfA, hfB]
  rfl

/-- C7 witness: the clean provenances of the spec's scenario. -/
theorem c7_witness :
    selectForDates ["06.01.2024"]
      [⟨Json.str "uA", "за 05.01.2024", Json.null, Json.null, Json.null⟩,
       ⟨Json.str "uB", "за 06.01.2024", Json.null, Json.null, Json.null⟩] =
      [(⟨Json.str "uB", "за 06.01.2024", Json.null, Json.null, Json.null⟩,
        "06.01.2024")] :=
  c7_selects_only_matching (Json.str "uA") Json.null Json.null Json.null
    (Json.str "uB") Json.null Json.null Json.null
    "за 05.01.2024" "за 06.01.2024" rfl rfl rfl

/-- C8: the file cache fetches once.  If the href's basename is not yet
cached and the fetch succeeds, the first ensure call performs one network
fetch and writes the file; the second call with no intervening removal
performs zero fetches, returns the same cached name and content, and
leaves the filesystem untouched. -/
theorem c8_cache_single_fetch (net : String → Option String) (fs : FS)
    (href : String) (c : String)
    (hmiss : fs.files.find? (fun p => p.1 == basenameOf href) = none)
    (hnet : net href = some c) :
    (ensureDoc net fs href).2.1 = 1 ∧
    (ensureDoc net (ensureDoc net fs href).1 href).2.1 = 0 ∧
    (ensureDoc net (ensureDoc net fs href).1 href).2.2 =
      some (basenameOf href, c) ∧
    (ensureDoc net (ensureDoc net fs href).1 href).1 =
      (ensureDoc net fs href).1 := by
  have h1 : ensureDoc net fs href =
      (⟨fs.files ++ [(basenameOf href, c)]⟩, 1, some (basenameOf href, c)) := by
    unfold ensureDoc
    dsimp only
    rw [hmiss]
    dsimp only
    rw [hnet]
  have h2 : ensureDoc net ⟨fs.files ++ [(basenameOf href, c)]⟩ href =
      (⟨fs.files ++ [(basenameOf href, c)]⟩, 0, some (basenameOf href, c)) := by
    unfold ensureDoc
    dsimp only
    rw [find?_append_none _ _ _ hmiss (by simp)]
  rw [h1]
  dsimp only
  rw [h2]
  exact ⟨rfl, rfl, rfl, rfl⟩

/-- C8 witness: empty cache, one href, deterministic network. -/
theorem c8_witness :
    (ensureDoc (fun _ => some "body") ⟨[]⟩ "a/x.json").2.1 = 1 ∧
    (ensureDoc (fun _ => some "body")
      (ensureDoc (fun _ => some "body") ⟨[]⟩ "a/x.json").1 "a/x.json").2.1 = 0 ∧
    (ensureDoc (fun _ => some "body")
      (ensureDoc (fun _ => some "body") ⟨[]⟩ "a/x.json").1 "a/x.json").2.2 =
      some (basenameOf "a/x.json", "body") ∧
    (ensureDoc (fun _ => some "body")
      (ensureDoc (fun _ => some "body") ⟨[]⟩ "a/x.json").1 "a/x.json").1 =
      (ensureDoc (fun _ => some "body") ⟨[]⟩ "a/x.json").1 :=
  c8_cache_single_fetch (fun _ => some "body") ⟨[]⟩ "a/x.json" "body" rfl rfl

/-- C9: basename collision treated as cache hit.  For two distinct hrefs
with the same final path segment, once the first is cached the second is
never fetched: the ensure step performs zero network fetches and hands
back the first href's cached content under the shared basename. -/
theorem c9_basename_collision (net : String → Option String) (fs : FS)
    (h1 h2 : String) (c1 : String)
    (hne : h1 ≠ h2) (hbn : basenameOf h1 = basenameOf h2)
    (hmiss : fs.files.find? (fun p => p.1 == basenameOf h1) = none)
    (hnet : net h1 = some c1) :
    ensureDoc net (ensureDoc net fs h1).1 h2 =
      ((ensureDoc net fs h1).1, 0, some (basenameOf h2, c1)) := by
  have ha : ensureDoc net fs h1 =
      (⟨fs.files ++ [(basenameOf h1, c1)]⟩, 1, some (basenameOf h1, c1)) := by
    unfold ensureDoc
    dsimp only
    rw [hmiss]
    dsimp only
    rw [hnet]
  rw [ha]
  dsimp only
  unfold ensureDoc
  dsimp only
  rw [← hbn]
  rw [find?_append_none _ _ _ hmiss (by simp)]

/-- C9 witness: `a/x.json` and `b/x.json` share the basename `x.json`. -/
theorem c9_witness :
    ensureDoc (fun s => if s == "a/x.json" then some "bodyA" else some "bodyB")
      (ensureDoc (fun s => if s == "a/x.json" then some "bodyA" else some "bodyB")
        ⟨[]⟩ "a/x.json").1 "b/x.json" =
      ((ensureDoc (fun s => if s == "a/x.json" then some "bodyA" else some "bodyB")
        ⟨[]⟩ "a/x.json").1, 0, some (basenameOf "b/x.json", "bodyA")) :=
  c9_basename_collision _ ⟨[]⟩ "a/x.json" "b/x.json" "bodyA"
    (by decide) (by decide) rfl rfl

/-- C10: with a detail-record id supplied, the flattened field map always
contains the `privatizationplansdetail_id` foreign-key field and is
therefore never empty, so the empty-mapping branch of
`process_document_file` is unreachable and an insert is always attempted;
consequently every `False` return of the processing step (with a detail
id) leaves the store unchanged — there is no path that records side
effects without attempting the insert. -/
theorem c10_detail_fk_always_present :
    (∀ (dt : DocType) (d : Json) (i : Int) (m : FlatMap),
      flattenDoc dt d (some i) = .ok m →
      hasKeyF m "privatizationplansdetail_id" = true ∧ m.isEmpty = false) ∧
    (∀ (dt : DocType) (fd : Json) (n : Int) (st st2 : DocState),
      processDoc dt fd (some n) st = .ok (false, st2) → st2 = st) := by
  constructor
  · intro dt d i m h
    have hk := flattenDoc_hasFK dt d i m h
    exact ⟨hk, hasKeyF_ne_nil hk⟩
  · intro dt fd n st st2 h
    exact processDoc_false_unchanged dt fd n st st2 h

/-- C10 witness: a document in which no other field is recognized still
yields a map holding exactly the foreign-key field. -/
theorem c10_witness :
    hasKeyF [("privatizationplansdetail_id", Json.num 3)]
      "privatizationplansdetail_id" = true ∧
    ([("privatizationplansdetail_id", Json.num 3)] : FlatMap).isEmpty = false :=
  c10_detail_fk_always_present.1 .privatizationPlan
    (.obj [("unknownField", Json.str "v")]) 3 _ rfl
